import Mathlib

/-!
Verification of the knowledge-base audit script
(src/scripts/audit-knowledge-base.py) against its specification.

The script loads a corpus of JSON documents and runs seven checks over it
(privacy terms, PII, family details, secrets, cross-references,
completeness, data quality), printing a report and exiting 0 iff all
checks pass.  We shallowly embed the script: JSON values become the
inductive type `JValue` (numbers are embedded as `Int`; the corpus under
audit contains no fractional numbers, and no claim depends on float
semantics), Python's dynamic failures (`KeyError`, `TypeError`,
`AttributeError`) become an `Except PyError` monad, and each concrete
regular expression of the script is implemented as an executable scanner
with Python `re` semantics (leftmost scan, greedy repetition with
backtracking, non-overlapping `findall`).  Python's `\s` is modelled as
ASCII whitespace (space, tab, CR, LF, VT, FF) and the ASCII-literal
character classes of the patterns keep their ASCII meaning.
-/

/-- A parsed JSON document value, as produced by `json.load`. -/
inductive JValue where
  | null : JValue
  | bool : Bool → JValue
  | num : Int → JValue
  | str : String → JValue
  | arr : List JValue → JValue
  | obj : List (String × JValue) → JValue
deriving Repr

mutual

/-- Python `==` on JSON values.  Mirrors CPython equality: `True == 1`,
`False == 0`, values of otherwise distinct types are unequal, containers
compare element-wise. -/
def JValue.beq : JValue → JValue → Bool
  | .null, .null => true
  | .bool a, .bool b => a == b
  | .bool a, .num n => (if a then (1 : Int) else 0) == n
  | .num n, .bool a => n == (if a then (1 : Int) else 0)
  | .num a, .num b => a == b
  | .str a, .str b => a == b
  | .arr a, .arr b => JValue.beqList a b
  | .obj a, .obj b => JValue.beqObj a b
  | _, _ => false

/-- Element-wise Python `==` on JSON arrays. -/
def JValue.beqList : List JValue → List JValue → Bool
  | [], [] => true
  | x :: xs, y :: ys => JValue.beq x y && JValue.beqList xs ys
  | _, _ => false

/-- Field-wise Python `==` on JSON objects (parsed objects are compared as
association lists; parsed JSON objects have unique keys). -/
def JValue.beqObj : List (String × JValue) → List (String × JValue) → Bool
  | [], [] => true
  | (k, v) :: xs, (l, w) :: ys => k == l && JValue.beq v w && JValue.beqObj xs ys
  | _, _ => false

end

/-- Python truthiness of a JSON value (`None`, `False`, `0`, `""`, `[]`,
`{}` are falsy). -/
def truthy : JValue → Bool
  | .null => false
  | .bool b => b
  | .num n => n != 0
  | .str s => !s.isEmpty
  | .arr xs => !xs.isEmpty
  | .obj kvs => !kvs.isEmpty

/-- Whether a Python value is hashable (usable as a set element):
scalars are, lists and dicts are not. -/
def hashable : JValue → Bool
  | .arr _ => false
  | .obj _ => false
  | _ => true

/-- The single-quote character, used by Python `repr` of strings. -/
def squote : String := String.mk [Char.ofNat 39]

mutual

/-- Python `repr()` of a JSON value (reachable in the script only through
`str()` of containers, which no check diagnostic ever exercises for a
hashable id; escaping of special characters inside string reprs is not
modelled). -/
def pyRepr : JValue → String
  | .null => "None"
  | .bool true => "True"
  | .bool false => "False"
  | .num n => toString n
  | .str s => squote ++ s ++ squote
  | .arr xs => "[" ++ String.intercalate ", " (JValue.reprList xs) ++ "]"
  | .obj kvs => "\x7b" ++ String.intercalate ", " (JValue.reprObj kvs) ++ "\x7d"

/-- `repr` of each element of a JSON array. -/
def JValue.reprList : List JValue → List String
  | [] => []
  | x :: xs => pyRepr x :: JValue.reprList xs

/-- `repr` of each entry of a JSON object. -/
def JValue.reprObj : List (String × JValue) → List String
  | [] => []
  | (k, v) :: xs => (squote ++ k ++ squote ++ ": " ++ pyRepr v) :: JValue.reprObj xs

end

/-- Python `str()` of a JSON value, as interpolated into f-strings by the
script's diagnostics. -/
def pyStr : JValue → String
  | .null => "None"
  | .bool true => "True"
  | .bool false => "False"
  | .num n => toString n
  | .str s => s
  | .arr xs => pyRepr (.arr xs)
  | .obj kvs => pyRepr (.obj kvs)

/-- The dynamic errors the script can raise while checking cross
references. -/
inductive PyError where
  | keyError (k : String) : PyError
  | typeError : PyError
  | attributeError : PyError
deriving Repr, DecidableEq

/-- Python `v[k]` for a string subscript: a dict lookup (`KeyError` when
the key is absent), a `TypeError` on any non-dict value. -/
def getItem (v : JValue) (k : String) : Except PyError JValue :=
  match v with
  | .obj kvs =>
      match kvs.find? (fun kv => kv.1 == k) with
      | some kv => .ok kv.2
      | none => .error (.keyError k)
  | _ => .error .typeError

/-- Python `v.get(k)`: `None`-or-value on a dict, `AttributeError` on any
non-dict value. -/
def dictGet (v : JValue) (k : String) : Except PyError (Option JValue) :=
  match v with
  | .obj kvs => .ok ((kvs.find? (fun kv => kv.1 == k)).map (fun kv => kv.2))
  | _ => .error .attributeError

/-- Python `"id" in v` for a dict value; `False` for non-dicts (the script
only evaluates it after an `isinstance(.., dict)` guard). -/
def hasKey (v : JValue) (k : String) : Bool :=
  match v with
  | .obj kvs => kvs.any (fun kv => kv.1 == k)
  | _ => false

/-- Python iteration `for x in v`: the elements for a list, the keys for a
dict, the characters for a string, `TypeError` otherwise. -/
def pyIter (v : JValue) : Except PyError (List JValue) :=
  match v with
  | .arr xs => .ok xs
  | .obj kvs => .ok (kvs.map (fun kv => JValue.str kv.1))
  | .str s => .ok (s.toList.map (fun c => JValue.str (String.mk [c])))
  | _ => .error .typeError

/-- Python `v in s` for a set `s` of previously collected values:
`TypeError` when `v` is unhashable, membership by Python `==` otherwise. -/
def setMem (s : List JValue) (v : JValue) : Except PyError Bool :=
  if hashable v then .ok (s.any (fun w => JValue.beq w v)) else .error .typeError

/-- One document of the corpus: its relative path, its raw file text, and
its parsed JSON value.  (File loading and JSON decoding are the external
collaborators; the checks consume this snapshot.) -/
structure Doc where
  rel : String
  content : String
  data : JValue

/-- The loaded corpus, in `os.walk` insertion order. -/
abbrev Corpus := List Doc

/-- Dict lookup on `files` by relative path (`files[rel]` / `rel in files`). -/
def lookupFile (files : List (String × JValue)) (k : String) : Option JValue :=
  (files.find? (fun kv => kv.1 == k)).map (fun kv => kv.2)

/-- Lexicographic comparison of character lists by code point, the order
Python uses on strings. -/
def charListLe : List Char → List Char → Bool
  | [], _ => true
  | _ :: _, [] => false
  | a :: as, b :: bs =>
      if a.toNat < b.toNat then true
      else if b.toNat < a.toNat then false
      else charListLe as bs

/-- Python `sorted(d.items())`: a stable sort of the pairs by key
(lexicographic by code point).  The corpus keys are unique (one entry per
file), so any stable sort by key models it; insertion sort is used because
it computes by structural recursion. -/
def sortPairs {α : Type} (l : List (String × α)) : List (String × α) :=
  l.insertionSort (fun a b => charListLe a.1.data b.1.data = true)

/-! ## Text scanners for the script's regular expressions -/

/-- ASCII whitespace, Python `\s`: space, tab, LF, CR, VT, FF. -/
def isSpaceChar (c : Char) : Bool :=
  c == ' ' || c == '\t' || c == '\n' || c == '\r' || c == Char.ofNat 11 || c == Char.ofNat 12

/-- Python `\w`: ASCII letters, digits, underscore. -/
def isWordChar (c : Char) : Bool := c.isAlphanum || c == '_'

/-- Python `\d`: ASCII digits. -/
def isDigitChar (c : Char) : Bool := c.isDigit

/-- Character at an index, out-of-range reads yield a space (a non-word,
non-digit character, matching how lookarounds treat the string ends). -/
def charAt (s : List Char) (i : Nat) : Char := s.getD i ' '

/-- Length of the maximal run of characters satisfying `p` at the head. -/
def runLen (p : Char → Bool) : List Char → Nat
  | [] => 0
  | c :: cs => if p c then runLen p cs + 1 else 0

/-- Case-insensitive equality of two character lists (ASCII folding, as in
`re.IGNORECASE` over the script's ASCII patterns). -/
def ciEq (xs ys : List Char) : Bool :=
  xs.length == ys.length && (List.zip xs ys).all (fun p => p.1.toLower == p.2.toLower)

/-- The literal `pat` matches (case-insensitively) at index `i` of `s`. -/
def litCI (s : List Char) (i : Nat) (pat : List Char) : Bool :=
  ciEq ((s.drop i).take pat.length) pat

/-- The literal `pat` matches (case-sensitively) at index `i` of `s`. -/
def litAt (s : List Char) (i : Nat) (pat : List Char) : Bool :=
  ((s.drop i).take pat.length) == pat

/-- Exactly `n` characters of class `p` are present at index `i`. -/
def classRunAt (p : Char → Bool) (s : List Char) (i n : Nat) : Bool :=
  ((s.drop i).take n).length == n && ((s.drop i).take n).all p

/-- No word character immediately before index `i` (`\b` entering a word). -/
def noWordBefore (s : List Char) (i : Nat) : Bool :=
  i == 0 || !isWordChar (charAt s (i - 1))

/-- No word character at index `i` (`\b` leaving a word ending at `i`). -/
def noWordAt (s : List Char) (i : Nat) : Bool := !isWordChar (charAt s i)

/-- A whole `\b pat \b` word match at index `i` (the patterns this serves
start and end with word characters). -/
def wordBoundedCI (s : List Char) (i : Nat) (pat : List Char) : Bool :=
  noWordBefore s i && litCI s i pat && noWordAt s (i + pat.length)

/-! ## check_privacy_terms -/

/-- `re.search` of a case-insensitive literal pattern. -/
def searchCI (pat : String) (s : List Char) : Bool :=
  (List.range (s.length + 1)).any (fun i => litCI s i pat.toList)

/-- `re.search` of `\$1M\b` with `re.IGNORECASE`: the literal `$1M`
followed by a word boundary. -/
def dollar1M (s : List Char) : Bool :=
  (List.range (s.length + 1)).any (fun i => litCI s i ("$1M".toList) && noWordAt s (i + 3))

/-- A character of the class `[_a-z]` under `re.IGNORECASE` (so letters of
either case, or an underscore). -/
def isLookClass (c : Char) : Bool := c == '_' || c.isAlpha

/-- `re.search` of `(?<![_a-z])boundaries(?![_a-z])` with `re.IGNORECASE`:
the word `boundaries` not enclosed in a longer `[_a-z]` token. -/
def boundariesTerm (s : List Char) : Bool :=
  (List.range (s.length + 1)).any (fun i =>
    litCI s i ("boundaries".toList) &&
    (i == 0 || !isLookClass (charAt s (i - 1))) &&
    !isLookClass (charAt s (i + 10)))

/-- The fixed `EXCLUDED` privacy-term list: the regex source text (as
printed in diagnostics) paired with its matcher. -/
def EXCLUDED : List (String × (List Char → Bool)) :=
  [ ("polyamorous", searchCI "polyamorous"),
    ("polyamory", searchCI "polyamory"),
    ("atheist", searchCI "atheist"),
    ("\\$60,000", searchCI "$60,000"),
    ("\\$60000", searchCI "$60000"),
    ("\\$1M\\b", dollar1M),
    ("\\$1,000,000", searchCI "$1,000,000"),
    ("stabbed", searchCI "stabbed"),
    ("stabbing", searchCI "stabbing"),
    ("home invasion", searchCI "home invasion"),
    ("ethical non-monogamy", searchCI "ethical non-monogamy"),
    ("open relationship", searchCI "open relationship"),
    ("OkCupid", searchCI "OkCupid"),
    ("Tinder", searchCI "Tinder"),
    ("Bumble", searchCI "Bumble"),
    ("Hinge", searchCI "Hinge"),
    ("social_profile", searchCI "social_profile"),
    ("(?<![_a-z])boundaries(?![_a-z])", boundariesTerm) ]

/-- The `[FAIL]` diagnostic of `check_privacy_terms`. -/
def privFailLine (rel term : String) : String :=
  "  [FAIL] " ++ rel ++ ": contains \"" ++ term ++ "\""

/-- The per-document body of the `check_privacy_terms` loop: one
diagnostic per matching excluded term. -/
def privacyDocLines (rel content : String) : List String :=
  EXCLUDED.flatMap (fun tm => if tm.2 content.toList then [privFailLine rel tm.1] else [])

/-- `check_privacy_terms`: scans every document's raw text (in sorted
order) for the excluded terms; returns the verdict and the printed lines. -/
def check_privacy_terms (content_map : List (String × String)) : Bool × List String :=
  let fails := (sortPairs content_map).flatMap (fun rc => privacyDocLines rc.1 rc.2)
  if fails.isEmpty then (true, ["  [PASS] No excluded privacy terms found"])
  else (false, fails)

/-! ## check_pii -/

/-- A character of the email local-part class `[a-zA-Z0-9._%+-]`. -/
def isLocalChar (c : Char) : Bool :=
  c.isAlphanum || c == '.' || c == '_' || c == '%' || c == '+' || c == '-'

/-- A character of the email domain class `[a-zA-Z0-9.-]`. -/
def isDomainChar (c : Char) : Bool := c.isAlphanum || c == '.' || c == '-'

/-- Length of the maximal ASCII-letter run at the head. -/
def alphaRun (s : List Char) : Nat := runLen Char.isAlpha s

/-- Backtracking of `[a-zA-Z0-9.-]+\.[a-zA-Z]{2,}` inside the maximal
domain-class run `D`: the regex engine gives the dot-split the largest
possible prefix, so the split point is the largest `k ≥ 1` with `D[k] = '.'`
followed by at least two letters; the match extends over the following
maximal (greedy) letter run. -/
def emailDomainEnd (D : List Char) : Option Nat :=
  match ((List.range D.length).filter (fun k =>
      decide (1 ≤ k) && charAt D k == '.' && decide (2 ≤ alphaRun (D.drop (k + 1))))).max? with
  | some k => some (k + 1 + alphaRun (D.drop (k + 1)))
  | none => none

/-- Length of the email-pattern match starting exactly at the head of `s`
(`[a-zA-Z0-9._%+-]+@[a-zA-Z0-9.-]+\.[a-zA-Z]{2,}`), when there is one. -/
def emailMatchLen (s : List Char) : Option Nat :=
  let l := runLen isLocalChar s
  if l == 0 then none
  else
    match s.drop l with
    | '@' :: rest =>
        let d := runLen isDomainChar rest
        if d == 0 then none
        else
          match emailDomainEnd (rest.take d) with
          | some e => some (l + 1 + e)
          | none => none
    | _ => none

/-- `re.findall` scan: try a match at each position left to right, emit
non-overlapping matches, resume after each match. -/
def emailScan : Nat → List Char → List String
  | 0, _ => []
  | _, [] => []
  | fuel + 1, s =>
      match emailMatchLen s with
      | some len => String.mk (s.take len) :: emailScan fuel (s.drop len)
      | none =>
          match s with
          | [] => []
          | _ :: cs => emailScan fuel cs

/-- `email_pat.findall(content)`. -/
def emailFindall (content : String) : List String :=
  emailScan (content.toList.length + 1) content.toList

/-- Digit at index `i` (out of range: no). -/
def isDigitAt (s : List Char) (i : Nat) : Bool := isDigitChar (charAt s i)

/-- Separator class `[-.\s]` of the phone pattern. -/
def isSepAt (s : List Char) (i : Nat) : Bool :=
  charAt s i == '-' || charAt s i == '.' || isSpaceChar (charAt s i)

/-- Exactly `n` digits at index `i`. -/
def digitRunAt (s : List Char) (i n : Nat) : Bool := classRunAt isDigitChar s i n

/-- `(?<!\d)` at index `i`. -/
def noDigitBefore (s : List Char) (i : Nat) : Bool := i == 0 || !isDigitAt s (i - 1)

/-- Tail of the phone pattern from the separator on:
`[-.\s]\d{3}[-.\s]\d{4}(?!\d)`. -/
def phoneTail2 (s : List Char) (k : Nat) : Bool :=
  isSepAt s k && digitRunAt s (k + 1) 3 && isSepAt s (k + 4) && digitRunAt s (k + 5) 4 &&
    !isDigitAt s (k + 9)

/-- Phone pattern from the area-code digits on: `\d{3}\)?[-.\s]\d{3}...`. -/
def phoneTail (s : List Char) (j : Nat) : Bool :=
  digitRunAt s j 3 && (phoneTail2 s (j + 3) || (charAt s (j + 3) == ')' && phoneTail2 s (j + 4)))

/-- Phone pattern from the optional opening parenthesis on. -/
def phoneOpen (s : List Char) (j : Nat) : Bool :=
  phoneTail s j || (charAt s j == '(' && phoneTail s (j + 1))

/-- A match of the whole phone pattern
`(?<!\d)(\+?1[-.\s]?)?\(?\d{3}\)?[-.\s]\d{3}[-.\s]\d{4}(?!\d)` starting at
index `i` (the search result is a boolean, so the existential over the
optional parts is faithful to the backtracking engine). -/
def phoneMatchAt (s : List Char) (i : Nat) : Bool :=
  noDigitBefore s i &&
    (phoneOpen s i ||
      (charAt s i == '1' && (phoneOpen s (i + 1) || (isSepAt s (i + 1) && phoneOpen s (i + 2)))) ||
      (charAt s i == '+' && charAt s (i + 1) == '1' &&
        (phoneOpen s (i + 2) || (isSepAt s (i + 2) && phoneOpen s (i + 3)))))

/-- `phone_pat.search(content)` as a boolean. -/
def phoneSearch (s : List Char) : Bool :=
  (List.range (s.length + 1)).any (fun i => phoneMatchAt s i)

/-- `ssn_pat.search(content)` as a boolean (`\d{3}-\d{2}-\d{4}`). -/
def ssnSearch (s : List Char) : Bool :=
  (List.range (s.length + 1)).any (fun i =>
    digitRunAt s i 3 && charAt s (i + 3) == '-' && digitRunAt s (i + 4) 2 &&
      charAt s (i + 6) == '-' && digitRunAt s (i + 7) 4)

/-- The per-email diagnostic of `check_pii`. -/
def emailFailLine (rel e : String) : String :=
  "  [FAIL] " ++ rel ++ ": email exposed: " ++ e

/-- The once-per-document phone diagnostic of `check_pii`. -/
def phoneFailLine (rel : String) : String :=
  "  [FAIL] " ++ rel ++ ": phone number exposed"

/-- The once-per-document SSN diagnostic of `check_pii`. -/
def ssnFailLine (rel : String) : String :=
  "  [FAIL] " ++ rel ++ ": SSN pattern found"

/-- The per-document body of the `check_pii` loop: every email occurrence
individually, then at most one phone flag, then at most one SSN flag. -/
def piiDocLines (rel content : String) : List String :=
  (emailFindall content).map (fun e => emailFailLine rel e) ++
    (if phoneSearch content.toList then [phoneFailLine rel] else []) ++
    (if ssnSearch content.toList then [ssnFailLine rel] else [])

/-- `check_pii`: email, phone and SSN exposure over every document's raw
text. -/
def check_pii (content_map : List (String × String)) : Bool × List String :=
  let fails := (sortPairs content_map).flatMap (fun rc => piiDocLines rc.1 rc.2)
  if fails.isEmpty then (true, ["  [PASS] No email, phone, or SSN exposure"])
  else (false, fails)

/-! ## check_family_details -/

/-- `re.findall` counting scan: at each position try a match; on success
count it and resume after it, otherwise advance one character.  (None of
the script's patterns can match the empty string.) -/
def scanCountAux (f : List Char → Nat → Option Nat) (s : List Char) : Nat → Nat → Nat
  | 0, _ => 0
  | fuel + 1, i =>
      if s.length < i then 0
      else
        match f s i with
        | some len => 1 + scanCountAux f s fuel (i + max len 1)
        | none => scanCountAux f s fuel (i + 1)

/-- Number of non-overlapping matches of a pattern (`len(re.findall(..))`). -/
def scanCount (f : List Char → Nat → Option Nat) (s : List Char) : Nat :=
  scanCountAux f s (s.length + 1) 0

/-- Match of `stay-at-home\s+(?:parent|mom|dad|mother|father)` (with
`re.IGNORECASE`) at index `i`: the literal, one-or-more whitespace
(greedy; no alternative starts with whitespace, so the maximal run is
forced), then the first alternative that matches. -/
def famStayAt (s : List Char) (i : Nat) : Option Nat :=
  if litCI s i ("stay-at-home".toList) then
    let j := i + 12
    let w := runLen isSpaceChar (s.drop j)
    if w == 0 then none
    else
      let k := j + w
      (["parent", "mom", "dad", "mother", "father"].findSome? (fun alt =>
        if litCI s k alt.toList then some (k + alt.length - i) else none))
  else none

/-- Match of `\bwife\b|\bhusband\b` at index `i`. -/
def famSpouse (s : List Char) (i : Nat) : Option Nat :=
  if wordBoundedCI s i ("wife".toList) then some 4
  else if wordBoundedCI s i ("husband".toList) then some 7
  else none

/-- Match of `\bdaughters?\b|\bsons?\b` at index `i`: each alternative is
tried with the greedy optional `s` first. -/
def famChild (s : List Char) (i : Nat) : Option Nat :=
  if wordBoundedCI s i ("daughters".toList) then some 9
  else if wordBoundedCI s i ("daughter".toList) then some 8
  else if wordBoundedCI s i ("sons".toList) then some 4
  else if wordBoundedCI s i ("son".toList) then some 3
  else none

/-- Match of `\bfather\b|\bmother\b` at index `i`. -/
def famParent (s : List Char) (i : Nat) : Option Nat :=
  if wordBoundedCI s i ("father".toList) then some 6
  else if wordBoundedCI s i ("mother".toList) then some 6
  else none

/-- Match of `\d+\s+(?:year|month)\s+old` at index `i` (each greedy run is
forced maximal because the following token cannot consume its class). -/
def famAge (s : List Char) (i : Nat) : Option Nat :=
  let d := runLen isDigitChar (s.drop i)
  if d == 0 then none
  else
    let j := i + d
    let w1 := runLen isSpaceChar (s.drop j)
    if w1 == 0 then none
    else
      let k := j + w1
      let unit : Option Nat :=
        if litCI s k ("year".toList) then some 4
        else if litCI s k ("month".toList) then some 5
        else none
      match unit with
      | none => none
      | some u =>
          let m := k + u
          let w2 := runLen isSpaceChar (s.drop m)
          if w2 == 0 then none
          else if litCI s (m + w2) ("old".toList) then some (m + w2 + 3 - i) else none

/-- The fixed pattern table of `check_family_details`: matcher and
description. -/
def FAMILY : List ((List Char → Nat → Option Nat) × String) :=
  [ (famStayAt, "stay-at-home family role"),
    (famSpouse, "specific spouse reference"),
    (famChild, "specific child gender"),
    (famParent, "specific parent role"),
    (famAge, "specific age") ]

/-- The `[FAIL]` diagnostic of `check_family_details`, with the occurrence
count. -/
def famFailLine (rel desc : String) (n : Nat) : String :=
  "  [FAIL] " ++ rel ++ ": " ++ desc ++ " (" ++ toString n ++ "x)"

/-- The per-document body of the `check_family_details` loop. -/
def familyDocLines (rel content : String) : List String :=
  FAMILY.flatMap (fun pd =>
    let n := scanCount pd.1 content.toList
    if n == 0 then [] else [famFailLine rel pd.2 n])

/-- `check_family_details`: over-specific family language in raw text. -/
def check_family_details (content_map : List (String × String)) : Bool × List String :=
  let fails := (sortPairs content_map).flatMap (fun rc => familyDocLines rc.1 rc.2)
  if fails.isEmpty then (true, ["  [PASS] Family details properly generalized"])
  else (false, fails)

/-! ## check_secrets -/

/-- Bearer-token tail class `[a-zA-Z0-9._-]`. -/
def isBearerChar (c : Char) : Bool := c.isAlphanum || c == '.' || c == '_' || c == '-'

/-- `re.search` of `ghp_[a-zA-Z0-9]{36}`. -/
def ghpSearch (s : List Char) : Bool :=
  (List.range (s.length + 1)).any (fun i =>
    litAt s i ("ghp_".toList) && classRunAt Char.isAlphanum s (i + 4) 36)

/-- `re.search` of `sk-[a-zA-Z0-9]{20,}`. -/
def skSearch (s : List Char) : Bool :=
  (List.range (s.length + 1)).any (fun i =>
    litAt s i ("sk-".toList) && classRunAt Char.isAlphanum s (i + 3) 20)

/-- `re.search` of `Bearer\s+[a-zA-Z0-9._-]{20,}` (the whitespace run is
forced maximal because a class character is never whitespace). -/
def bearerSearch (s : List Char) : Bool :=
  (List.range (s.length + 1)).any (fun i =>
    litAt s i ("Bearer".toList) &&
      (let w := runLen isSpaceChar (s.drop (i + 6))
       decide (1 ≤ w) && classRunAt isBearerChar s (i + 6 + w) 20))

/-- `re.search` of `-----BEGIN.*KEY-----`: `.` does not match a newline,
and a boolean search is an existential over the dot-gap. -/
def beginKeySearch (s : List Char) : Bool :=
  (List.range (s.length + 1)).any (fun i =>
    litAt s i ("-----BEGIN".toList) &&
      (List.range (s.length + 1)).any (fun k =>
        decide (i + 10 ≤ k) && litAt s k ("KEY-----".toList) &&
          ((s.drop (i + 10)).take (k - (i + 10))).all (fun c => c != '\n')))

/-- `re.search` of `AKIA[0-9A-Z]{16}`. -/
def akiaSearch (s : List Char) : Bool :=
  (List.range (s.length + 1)).any (fun i =>
    litAt s i ("AKIA".toList) && classRunAt (fun c => c.isDigit || c.isUpper) s (i + 4) 16)

/-- `re.search` of `password\s*[:=]\s*\S+` (both whitespace runs are forced
maximal; the final `\S+` needs one more in-range character, which by
maximality of the run is then not whitespace). -/
def passwordSearch (s : List Char) : Bool :=
  (List.range (s.length + 1)).any (fun i =>
    litAt s i ("password".toList) &&
      (let w1 := runLen isSpaceChar (s.drop (i + 8))
       let c := charAt s (i + 8 + w1)
       (c == ':' || c == '=') &&
         (let w2 := runLen isSpaceChar (s.drop (i + 9 + w1))
          decide (i + 9 + w1 + w2 < s.length))))

/-- The fixed pattern table of `check_secrets`. -/
def SECRETS : List ((List Char → Bool) × String) :=
  [ (ghpSearch, "GitHub token"),
    (skSearch, "API key"),
    (bearerSearch, "Bearer token"),
    (beginKeySearch, "Private key"),
    (akiaSearch, "AWS access key"),
    (passwordSearch, "Hardcoded password") ]

/-- The `[FAIL]` diagnostic of `check_secrets`. -/
def secFailLine (rel desc : String) : String :=
  "  [FAIL] " ++ rel ++ ": " ++ desc ++ " found"

/-- The per-document body of the `check_secrets` loop: one flag per
matching pattern. -/
def secretsDocLines (rel content : String) : List String :=
  SECRETS.flatMap (fun pd => if pd.1 content.toList then [secFailLine rel pd.2] else [])

/-- `check_secrets`: hardcoded secrets and credentials in raw text. -/
def check_secrets (content_map : List (String × String)) : Bool × List String :=
  let fails := (sortPairs content_map).flatMap (fun rc => secretsDocLines rc.1 rc.2)
  if fails.isEmpty then (true, ["  [PASS] No secrets or credentials detected"])
  else (false, fails)

/-! ## check_xrefs -/

/-- The set comprehension collecting ids of a referenced collection,
`{c["id"] for c in elems}`: each element is subscripted with `"id"` (a
`KeyError`/`TypeError` aborts), and the value must be hashable to enter
the set.  Membership below only needs the collected values, so a list
stands for the set. -/
def buildIdSet : List JValue → Except PyError (List JValue)
  | [] => .ok []
  | x :: xs =>
      match getItem x "id" with
      | .error e => .error e
      | .ok v =>
          if hashable v then
            match buildIdSet xs with
            | .error e => .error e
            | .ok rest => .ok (v :: rest)
          else .error .typeError

/-- The dangling-reference diagnostic text (before the `[FAIL]` tag). -/
def relMissingLine (label : String) (v : JValue) : String :=
  label ++ " \"" ++ pyStr v ++ "\" missing"

/-- The source-side loop of one named relationship:
`if p.get(field) and p[field] not in cids: errors.append(...)`. -/
def relErrors (label field : String) (cids : List JValue) : List JValue → Except PyError (List String)
  | [] => .ok []
  | p :: rest =>
      match dictGet p field with
      | .error e => .error e
      | .ok g =>
          match
            (match g with
             | some v =>
                 if truthy v then
                   match setMem cids v with
                   | .error e => .error e
                   | .ok m => .ok (if m then [] else [relMissingLine label v])
                 else .ok []
             | none => .ok [] : Except PyError (List String)) with
          | .error e => .error e
          | .ok here =>
              match relErrors label field cids rest with
              | .error e => .error e
              | .ok there => .ok (here ++ there)

/-- One named relationship block of `check_xrefs`: when both documents are
present, collect the target ids and scan the source records.  The target
document appears first in the script's membership test and its id set is
built before the source is iterated. -/
def relPart (files : List (String × JValue)) (tgtKey srcKey field label : String) :
    Except PyError (List String) :=
  match lookupFile files tgtKey, lookupFile files srcKey with
  | some tv, some sv =>
      match pyIter tv with
      | .error e => .error e
      | .ok tl =>
          match buildIdSet tl with
          | .error e => .error e
          | .ok cids =>
              match pyIter sv with
              | .error e => .error e
              | .ok sl => relErrors label field cids sl
  | _, _ => .ok []

/-- The duplicate-id diagnostic text (before the `[FAIL]` tag). -/
def dupIdLine (rel : String) (v : JValue) : String :=
  rel ++ ": duplicate id \"" ++ pyStr v ++ "\""

/-- The duplicate-id loop body over one collection:
`if item["id"] in seen: errors.append(...); seen.add(item["id"])`. -/
def dupScan (rel : String) : List JValue → List JValue → Except PyError (List String)
  | [], _ => .ok []
  | item :: rest, seen =>
      match getItem item "id" with
      | .error e => .error e
      | .ok v =>
          match setMem seen v with
          | .error e => .error e
          | .ok m =>
              match dupScan rel rest (v :: seen) with
              | .error e => .error e
              | .ok tail => .ok ((if m then [dupIdLine rel v] else []) ++ tail)

/-- The per-document guard of the duplicate-id scan:
`isinstance(data, list) and data and isinstance(data[0], dict) and "id" in data[0]`. -/
def dupEntry (rel : String) (v : JValue) : Except PyError (List String) :=
  match v with
  | .arr (x :: xs) => if hasKey x "id" then dupScan rel (x :: xs) [] else .ok []
  | _ => .ok []

/-- The duplicate-id scan over every file, in corpus insertion order. -/
def dupAll : List (String × JValue) → Except PyError (List String)
  | [] => .ok []
  | (rel, v) :: rest =>
      match dupEntry rel v with
      | .error e => .error e
      | .ok here =>
          match dupAll rest with
          | .error e => .error e
          | .ok there => .ok (here ++ there)

/-- The `[FAIL]` tag applied to each collected cross-reference error. -/
def failTag (e : String) : String := "  [FAIL] " ++ e

/-- `check_xrefs`: the three named relationships, then the duplicate-id
scan over every collection; fails iff any error was collected.  A dynamic
error (`KeyError` on a record without `id`, `TypeError` on a non-record,
an unhashable id) aborts the whole run. -/
def check_xrefs (files : List (String × JValue)) : Except PyError (Bool × List String) :=
  match relPart files "career/companies.json" "career/positions.json" "company_id"
      "positions: company_id" with
  | .error e => .error e
  | .ok e1 =>
      match relPart files "career/positions.json" "career/projects.json" "position_id"
          "projects: position_id" with
      | .error e => .error e
      | .ok e2 =>
          match relPart files "career/education.json" "career/courses.json"
              "associated_education_id" "courses: education_id" with
          | .error e => .error e
          | .ok e3 =>
              match dupAll files with
              | .error e => .error e
              | .ok e4 =>
                  let errors := e1 ++ e2 ++ e3 ++ e4
                  if errors.isEmpty then
                    .ok (true, ["  [PASS] All cross-references resolve, no duplicate IDs"])
                  else .ok (false, errors.map failTag)

/-! ## check_completeness -/

/-- The fixed expected-document manifest. -/
def expectedFiles : List String :=
  [ "career/profile.json", "career/companies.json", "career/positions.json",
    "career/education.json", "career/skills.json", "career/certifications.json",
    "career/projects.json", "career/publications.json", "career/recommendations.json",
    "career/honors.json", "career/volunteering.json", "career/courses.json",
    "brand/identity.json", "brand/values.json", "brand/personality.json",
    "brand/communication-styles.json", "brand/brand-narratives.json",
    "strategy/job-search.json", "strategy/career-objectives.json",
    "strategy/audience-frameworks.json", "strategy/target-market.json",
    "agents/workflow-architecture.json", "agents/permissions-matrix.json",
    "agents/agent-definitions.json", "agents/quality-standards.json",
    "content/writing-formulas.json", "content/message-templates.json",
    "content/platform-constraints.json" ]

/-- The missing-document diagnostic of `check_completeness`. -/
def missingLine (f : String) : String := "  [FAIL] Missing: " ++ f

/-- `check_completeness`: every expected file must be a corpus key. -/
def check_completeness (files : List (String × JValue)) : Bool × List String :=
  let missing := expectedFiles.filter (fun f => !(lookupFile files f).isSome)
  if missing.isEmpty then
    (true, ["  [PASS] All " ++ toString expectedFiles.length ++ " expected files present"])
  else (false, missing.map missingLine)

/-! ## check_data_quality -/

/-- The per-document body of the `check_data_quality` loop: flag an empty
array or an empty object as the parsed value. -/
def qualityDocLines (rel : String) (v : JValue) : List String :=
  match v with
  | .arr [] => ["  [FAIL] " ++ rel ++ ": empty array"]
  | .obj [] => ["  [FAIL] " ++ rel ++ ": empty object"]
  | _ => []

/-- `check_data_quality`: no document parses to an empty container. -/
def check_data_quality (files : List (String × JValue)) : Bool × List String :=
  let fails := (sortPairs files).flatMap (fun rv => qualityDocLines rv.1 rv.2)
  if fails.isEmpty then (true, ["  [PASS] No empty files, all JSON valid"])
  else (false, fails)

/-! ## main -/

/-- The raw-text map handed to the pattern checks (`read_content`). -/
def contentOf (c : Corpus) : List (String × String) := c.map (fun d => (d.rel, d.content))

/-- The parsed-value map handed to the structural checks (`load_files`). -/
def filesOf (c : Corpus) : List (String × JValue) := c.map (fun d => (d.rel, d.data))

/-- The per-document record-count line of the final report section. -/
def recordCountLine (rel : String) (v : JValue) : String :=
  "  " ++ rel ++ ": " ++
    (match v with
     | .arr xs => toString xs.length ++ " records"
     | _ => "single object")

/-- The failed-checks summary line. -/
def failedSummary (n : Nat) : String := "  " ++ toString n ++ " CHECK(S) FAILED - see above"

/-- `main`: runs the seven checks in their fixed order over the loaded
corpus, prints the bannered report, and returns the exit status — `0` iff
every check passed.  An uncaught dynamic error from `check_xrefs` aborts
the run (no report value, no exit-status computation); the partial output
printed before the abort is not modelled. -/
def auditMain (c : Corpus) : Except PyError (Nat × List String) :=
  let content_map := contentOf c
  let files := filesOf c
  let r1 := check_privacy_terms content_map
  let r2 := check_pii content_map
  let r3 := check_family_details content_map
  let r4 := check_secrets content_map
  match check_xrefs files with
  | .error e => .error e
  | .ok r5 =>
      let r6 := check_completeness files
      let r7 := check_data_quality files
      let results := [r1.1, r2.1, r3.1, r4.1, r5.1, r6.1, r7.1]
      let allPass := results.all id
      let failed := (results.filter (fun b => !b)).length
      let report :=
        ["========================================", "  KNOWLEDGE BASE AUDIT REPORT",
         "========================================", "", "[1] PRIVACY EXCLUSION TERMS"] ++ r1.2 ++
        ["", "[2] PII EXPOSURE (email, phone, SSN)"] ++ r2.2 ++
        ["", "[3] FAMILY DETAIL SPECIFICITY"] ++ r3.2 ++
        ["", "[4] SECRETS & CREDENTIALS"] ++ r4.2 ++
        ["", "[5] CROSS-REFERENCE INTEGRITY"] ++ r5.2 ++
        ["", "[6] FILE COMPLETENESS"] ++ r6.2 ++
        ["", "[7] DATA QUALITY"] ++ r7.2 ++
        ["", "========================================"] ++
        [if allPass then "  ALL CHECKS PASSED" else failedSummary failed] ++
        ["========================================", "", "RECORD COUNTS:"] ++
        (sortPairs files).map (fun rv => recordCountLine rv.1 rv.2)
      .ok (if allPass then 0 else 1, report)

/-! ## Helper lemmas -/

/-- The character data of an appended string. -/
theorem strData (a b : String) : (a ++ b).data = a.data ++ b.data := rfl

/-- String append is associative. -/
theorem strAssoc (a b c : String) : a ++ b ++ c = a ++ (b ++ c) :=
  String.ext (by simp [strData, List.append_assoc])

/-- Left cancellation for string append. -/
theorem strCancelLeft {a b c : String} (h : a ++ b = a ++ c) : b = c := by
  have hd : a.data ++ b.data = a.data ++ c.data := by
    have h2 := congrArg String.data h
    simpa [strData] using h2
  exact String.ext (List.append_cancel_left hd)

/-- Right cancellation for string append. -/
theorem strCancelRight {a b c : String} (h : a ++ c = b ++ c) : a = b := by
  have hd : a.data ++ c.data = b.data ++ c.data := by
    have h2 := congrArg String.data h
    simpa [strData] using h2
  exact String.ext (List.append_cancel_right hd)

/-- Two character lists differing within the first `n` characters of the
left list stay different after extending the left one. -/
theorem append_ne_of_take {A B : List Char} (n : Nat) (hn : n ≤ A.length)
    (hAB : A.take n ≠ B.take n) (l : List Char) : A ++ l ≠ B := by
  intro h
  apply hAB
  rw [← h, List.take_append_of_le_length hn]

/-- A filter retaining exactly one element of a duplicate-free list. -/
theorem filter_eq_singleton_of_unique {l : List String} (hnd : l.Nodup) {p : String → Bool}
    {f : String} (hf : f ∈ l) (hpf : p f = true)
    (hother : ∀ g ∈ l, g ≠ f → p g = false) : l.filter p = [f] := by
  induction l with
  | nil => cases hf
  | cons a l ih =>
      rcases List.mem_cons.mp hf with rfl | hfl
      · rw [List.filter_cons_of_pos hpf]
        have hnil : l.filter p = [] := List.filter_eq_nil_iff.mpr (fun g hg => by
          have hne : g ≠ f := by
            rintro rfl
            exact (List.nodup_cons.mp hnd).1 hg
          simp [hother g (List.mem_cons_of_mem _ hg) hne])
        rw [hnil]
      · have hne : a ≠ f := by
          rintro rfl
          exact (List.nodup_cons.mp hnd).1 hfl
        rw [List.filter_cons_of_neg (by simp [hother a (List.mem_cons_self a l) hne])]
        exact ih (List.nodup_cons.mp hnd).2 hfl
          (fun g hg hgne => hother g (List.mem_cons_of_mem _ hg) hgne)

/-! ## C10: partiality of the cross-reference check -/

/-- A corpus violating the id-presence precondition of the
cross-reference check: the companies collection participates in a named
relationship but its (only) record is a mapping without an `id` field. -/
def c10files : List (String × JValue) :=
  [("career/companies.json", .arr [.obj []]), ("career/positions.json", .arr [])]

/-- The same corpus with its raw JSON texts. -/
def c10corpus : Corpus :=
  [⟨"career/companies.json", "[\x7b\x7d]", .arr [.obj []]⟩,
   ⟨"career/positions.json", "[]", .arr []⟩]

/-- C10: the cross-reference check subscripts records with `record["id"]`
directly, so on a corpus whose referenced collection holds a record
without an `id` field the check raises `KeyError` instead of returning a
verdict, and the whole run aborts with that error — the completeness and
data-quality checks never produce a result. -/
theorem xref_key_error_aborts_run :
    hasKey (JValue.obj []) "id" = false ∧
    check_xrefs c10files = .error (.keyError "id") ∧
    auditMain c10corpus = .error (.keyError "id") :=
  ⟨rfl, rfl, rfl⟩

/-! ## C8: determinism of the run -/

/-- C8: the audit is a pure function of the loaded corpus snapshot: two
runs over the same unmodified corpus produce the identical report
(line for line) and the same exit status. -/
theorem audit_run_deterministic (c₁ c₂ : Corpus) (h : c₁ = c₂) :
    auditMain c₁ = auditMain c₂ := by
  rw [h]

/-- Witness for C8 at a concrete corpus. -/
theorem audit_run_deterministic_witness :
    auditMain c10corpus = auditMain c10corpus :=
  audit_run_deterministic c10corpus c10corpus rfl

/-! ## C4: the completeness check -/

/-- The expected-document manifest has no duplicate entries. -/
theorem expectedFiles_nodup : expectedFiles.Nodup := by decide

/-- C4: the completeness check passes iff every manifest id is a corpus
key, it reports every absent manifest id, and removing exactly one
required document from an otherwise complete corpus makes it fail naming
exactly that document. -/
theorem completeness_check_reports_missing :
    (∀ files : List (String × JValue),
      ((check_completeness files).1 = true ↔
        ∀ f ∈ expectedFiles, (lookupFile files f).isSome = true)) ∧
    (∀ (files : List (String × JValue)) (f : String), f ∈ expectedFiles →
      (lookupFile files f).isSome = false →
      missingLine f ∈ (check_completeness files).2) ∧
    (∀ (files : List (String × JValue)) (f : String), f ∈ expectedFiles →
      (lookupFile files f).isSome = false →
      (∀ g ∈ expectedFiles, g ≠ f → (lookupFile files g).isSome = true) →
      (check_completeness files).1 = false ∧
        (check_completeness files).2 = [missingLine f]) := by
  refine ⟨?_, ?_, ?_⟩
  · intro files
    simp only [check_completeness]
    split
    next h =>
      simp only [List.isEmpty_iff, List.filter_eq_nil_iff] at h
      simp only [true_iff]
      intro f hf
      have h2 := h f hf
      simpa [Option.isSome_iff_ne_none] using h2
    next h =>
      simp only [List.isEmpty_iff, List.filter_eq_nil_iff] at h
      push_neg at h
      obtain ⟨f, hf, hpf⟩ := h
      constructor
      · intro hc
        simp at hc
      · intro hall
        have h2 := hall f hf
        simp [h2] at hpf
  · intro files f hf habs
    have hmem : f ∈ expectedFiles.filter (fun f => !(lookupFile files f).isSome) :=
      List.mem_filter.mpr ⟨hf, by simp [habs]⟩
    simp only [check_completeness]
    split
    next h =>
      rw [List.isEmpty_iff] at h
      rw [h] at hmem
      cases hmem
    next h =>
      exact List.mem_map_of_mem missingLine hmem
  · intro files f hf habs hrest
    have hfilter : expectedFiles.filter (fun g => !(lookupFile files g).isSome) = [f] :=
      filter_eq_singleton_of_unique expectedFiles_nodup hf (by simp [habs])
        (fun g hg hgne => by simp [hrest g hg hgne])
    simp only [check_completeness]
    rw [hfilter]
    simp [missingLine]

/-- A corpus holding 27 of the 28 manifest documents: only the
platform-constraints document is absent. -/
def c4files : List (String × JValue) :=
  (expectedFiles.filter (fun g => g != "content/platform-constraints.json")).map
    (fun g => (g, JValue.obj [("a", JValue.str "b")]))

/-- Witness for C4: on the concrete 27-document corpus the completeness
check fails and names exactly the removed document. -/
theorem completeness_check_reports_missing_witness :
    (check_completeness c4files).1 = false ∧
      (check_completeness c4files).2 = [missingLine "content/platform-constraints.json"] :=
  completeness_check_reports_missing.2.2 c4files "content/platform-constraints.json"
    (by decide) (by decide) (by decide)

/-! ## C1: exit status is the conjunction of the seven verdicts -/

/-- C1: whenever the run completes, the exit status is 0 or 1, and it is 0
exactly when all seven checks — privacy terms, PII, family details,
secrets, cross-references, completeness, data quality — returned a passing
verdict; the overall verdict is the conjunction of the seven booleans. -/
theorem exit_status_iff_all_checks_pass (c : Corpus) (code : Nat) (report : List String)
    (h : auditMain c = .ok (code, report)) :
    ∃ r5 : Bool × List String, check_xrefs (filesOf c) = .ok r5 ∧
      ((code = 0) ↔
        ((check_privacy_terms (contentOf c)).1 = true ∧
         (check_pii (contentOf c)).1 = true ∧
         (check_family_details (contentOf c)).1 = true ∧
         (check_secrets (contentOf c)).1 = true ∧
         r5.1 = true ∧
         (check_completeness (filesOf c)).1 = true ∧
         (check_data_quality (filesOf c)).1 = true)) ∧
      (code = 0 ∨ code = 1) := by
  unfold auditMain at h
  simp only [] at h
  cases hx : check_xrefs (filesOf c) with
  | error e =>
      rw [hx] at h
      cases h
  | ok r5 =>
      rw [hx] at h
      refine ⟨r5, rfl, ?_⟩
      simp only [Except.ok.injEq, Prod.mk.injEq] at h
      obtain ⟨hcode, _⟩ := h
      subst hcode
      constructor
      · simp only [List.all_cons, List.all_nil, id_eq, Bool.and_true]
        constructor
        · intro h0
          split at h0
          next hall =>
            simp only [List.all_cons, List.all_nil, id_eq, Bool.and_true,
              Bool.and_eq_true] at hall
            tauto
          next => exact absurd h0 (by simp)
        · intro hall
          have : ((check_privacy_terms (contentOf c)).1 &&
              ((check_pii (contentOf c)).1 && ((check_family_details (contentOf c)).1 &&
              ((check_secrets (contentOf c)).1 && (r5.1 && ((check_completeness (filesOf c)).1 &&
              (check_data_quality (filesOf c)).1)))))) = true := by
            simp only [Bool.and_eq_true]
            tauto
          split
          next => rfl
          next hfalse =>
            exfalso
            apply hfalse
            simpa using this
      · split
        next => exact Or.inl rfl
        next => exact Or.inr rfl

/-- Witness for C1 at the empty corpus, whose run completes with exit
status 1 (the completeness check fails there). -/
theorem exit_status_iff_all_checks_pass_witness :
    ∃ r5 : Bool × List String, check_xrefs (filesOf []) = .ok r5 ∧
      (((1 : Nat) = 0) ↔
        ((check_privacy_terms (contentOf [])).1 = true ∧
         (check_pii (contentOf [])).1 = true ∧
         (check_family_details (contentOf [])).1 = true ∧
         (check_secrets (contentOf [])).1 = true ∧
         r5.1 = true ∧
         (check_completeness (filesOf [])).1 = true ∧
         (check_data_quality (filesOf [])).1 = true)) ∧
      ((1 : Nat) = 0 ∨ (1 : Nat) = 1) :=
  exit_status_iff_all_checks_pass [] 1 _ rfl

/-! ## C5: PII diagnostic multiplicity -/

/-- For a fixed document, distinct email matches yield distinct
diagnostics. -/
theorem emailFailLine_inj (rel : String) : Function.Injective (emailFailLine rel) := by
  intro a b h
  simp only [emailFailLine] at h
  exact strCancelLeft h

/-- An email diagnostic is never the phone diagnostic of the same
document. -/
theorem emailLine_ne_phoneLine (rel e : String) : emailFailLine rel e ≠ phoneFailLine rel := by
  intro h
  simp only [emailFailLine, phoneFailLine] at h
  rw [strAssoc ("  [FAIL] " ++ rel)] at h
  have h2 := strCancelLeft h
  have hd := congrArg String.data h2
  rw [strData] at hd
  exact append_ne_of_take 3 (by decide) (by decide) e.data hd

/-- An email diagnostic is never the SSN diagnostic of the same document. -/
theorem emailLine_ne_ssnLine (rel e : String) : emailFailLine rel e ≠ ssnFailLine rel := by
  intro h
  simp only [emailFailLine, ssnFailLine] at h
  rw [strAssoc ("  [FAIL] " ++ rel)] at h
  have h2 := strCancelLeft h
  have hd := congrArg String.data h2
  rw [strData] at hd
  exact append_ne_of_take 3 (by decide) (by decide) e.data hd

/-- The phone diagnostic is never the SSN diagnostic of the same document. -/
theorem phoneLine_ne_ssnLine (rel : String) : phoneFailLine rel ≠ ssnFailLine rel := by
  intro h
  simp only [phoneFailLine, ssnFailLine] at h
  have h2 := strCancelLeft h
  exact absurd h2 (by decide)

/-- C5: within a document's PII diagnostics, each email occurrence is
reported individually (the diagnostic count of an address equals its
`findall` occurrence count), while phone and SSN matches are reported at
most once per document — exactly once when the pattern matches at all,
regardless of the number of occurrences; and a document containing
`jane.doe@example.com` makes the check fail and report that exact
address. -/
theorem pii_diagnostic_multiplicity :
    (∀ rel content e,
      (piiDocLines rel content).count (emailFailLine rel e) =
        (emailFindall content).count e) ∧
    (∀ rel content,
      (piiDocLines rel content).count (phoneFailLine rel) =
        (if phoneSearch content.toList then 1 else 0)) ∧
    (∀ rel content,
      (piiDocLines rel content).count (ssnFailLine rel) =
        (if ssnSearch content.toList then 1 else 0)) ∧
    ((check_pii [("a.json", "contact: jane.doe@example.com ok")]).1 = false ∧
      emailFailLine "a.json" "jane.doe@example.com" ∈
        (check_pii [("a.json", "contact: jane.doe@example.com ok")]).2) := by
  refine ⟨?_, ?_, ?_, ?_, ?_⟩
  · intro rel content e
    unfold piiDocLines
    rw [List.count_append, List.count_append]
    have h1 : ((emailFindall content).map (fun x => emailFailLine rel x)).count
        (emailFailLine rel e) = (emailFindall content).count e :=
      List.count_map_of_injective _ _ (emailFailLine_inj rel) e
    have h2 : ((if phoneSearch content.toList then [phoneFailLine rel] else []).count
        (emailFailLine rel e)) = 0 := by
      rw [List.count_eq_zero]
      intro hmem
      split at hmem
      · rw [List.mem_singleton] at hmem
        exact emailLine_ne_phoneLine rel e hmem
      · cases hmem
    have h3 : ((if ssnSearch content.toList then [ssnFailLine rel] else []).count
        (emailFailLine rel e)) = 0 := by
      rw [List.count_eq_zero]
      intro hmem
      split at hmem
      · rw [List.mem_singleton] at hmem
        exact emailLine_ne_ssnLine rel e hmem
      · cases hmem
    rw [h1, h2, h3]
    omega
  · intro rel content
    unfold piiDocLines
    rw [List.count_append, List.count_append]
    have h1 : ((emailFindall content).map (fun x => emailFailLine rel x)).count
        (phoneFailLine rel) = 0 := by
      rw [List.count_eq_zero]
      intro hmem
      obtain ⟨a, _, ha⟩ := List.mem_map.mp hmem
      exact emailLine_ne_phoneLine rel a ha
    have h2 : ((if phoneSearch content.toList then [phoneFailLine rel] else []).count
        (phoneFailLine rel)) = if phoneSearch content.toList then 1 else 0 := by
      split
      · simp
      · simp
    have h3 : ((if ssnSearch content.toList then [ssnFailLine rel] else []).count
        (phoneFailLine rel)) = 0 := by
      rw [List.count_eq_zero]
      intro hmem
      split at hmem
      · rw [List.mem_singleton] at hmem
        exact phoneLine_ne_ssnLine rel hmem
      · cases hmem
    rw [h1, h2, h3]
    omega
  · intro rel content
    unfold piiDocLines
    rw [List.count_append, List.count_append]
    have h1 : ((emailFindall content).map (fun x => emailFailLine rel x)).count
        (ssnFailLine rel) = 0 := by
      rw [List.count_eq_zero]
      intro hmem
      obtain ⟨a, _, ha⟩ := List.mem_map.mp hmem
      exact emailLine_ne_ssnLine rel a ha
    have h2 : ((if phoneSearch content.toList then [phoneFailLine rel] else []).count
        (ssnFailLine rel)) = 0 := by
      rw [List.count_eq_zero]
      intro hmem
      split at hmem
      · rw [List.mem_singleton] at hmem
        exact phoneLine_ne_ssnLine rel hmem.symm
      · cases hmem
    have h3 : ((if ssnSearch content.toList then [ssnFailLine rel] else []).count
        (ssnFailLine rel)) = if ssnSearch content.toList then 1 else 0 := by
      split
      · simp
      · simp
    rw [h1, h2, h3]
    omega
  · rfl
  · exact List.Mem.head _

/-! ## C9: privacy-term diagnostics -/

/-- For a fixed document, distinct excluded terms yield distinct
diagnostics. -/
theorem privFailLine_inj (rel : String) {t u : String}
    (h : privFailLine rel t = privFailLine rel u) : t = u := by
  simp only [privFailLine] at h
  exact strCancelLeft (strCancelRight h)

/-- Counting one term's diagnostic in a per-document flatMap over a
term table with duplicate-free term texts. -/
theorem count_privacy_flatMap (rel content term : String) (m : List Char → Bool)
    (L : List (String × (List Char → Bool))) (hnd : (L.map Prod.fst).Nodup)
    (hmem : (term, m) ∈ L) :
    ((L.flatMap (fun tm => if tm.2 content.toList then [privFailLine rel tm.1] else [])).count
      (privFailLine rel term)) = if m content.toList then 1 else 0 := by
  induction L with
  | nil => cases hmem
  | cons a L ih =>
      rw [List.flatMap_cons, List.count_append]
      rcases List.mem_cons.mp hmem with heq | hmem'
      · obtain rfl := heq.symm
        have htail : ((L.flatMap (fun tm =>
            if tm.2 content.toList then [privFailLine rel tm.1] else [])).count
              (privFailLine rel term)) = 0 := by
          rw [List.count_eq_zero]
          intro hmem2
          rw [List.mem_flatMap] at hmem2
          obtain ⟨tm, htm, hin⟩ := hmem2
          have hterm : tm.1 = term := by
            split at hin
            · rw [List.mem_singleton] at hin
              exact (privFailLine_inj rel hin.symm)
            · cases hin
          have : term ∈ L.map Prod.fst := hterm ▸ List.mem_map_of_mem Prod.fst htm
          exact (List.nodup_cons.mp hnd).1 this
        rw [htail]
        split
        · simp
        · simp
      · have hhead : ((if a.2 content.toList then [privFailLine rel a.1] else []).count
            (privFailLine rel term)) = 0 := by
          rw [List.count_eq_zero]
          intro hin
          have hterm : a.1 = term := by
            split at hin
            · rw [List.mem_singleton] at hin
              exact (privFailLine_inj rel hin.symm)
            · cases hin
          have : term ∈ L.map Prod.fst := List.mem_map_of_mem Prod.fst hmem'
          rw [← hterm] at this
          exact (List.nodup_cons.mp hnd).1 this
        rw [hhead, ih (List.nodup_cons.mp hnd).2 hmem']
        omega

/-- The 18 excluded term texts are pairwise distinct. -/
theorem excluded_terms_nodup : (EXCLUDED.map Prod.fst).Nodup := by decide

/-- C9: every matching (document, term) pair of the excluded list yields
exactly one diagnostic (and a non-matching pair none); matching is
case-insensitive (a capitalized occurrence is flagged); and the
`boundaries` term's negative lookaround keeps it from firing inside a
longer token such as a compound key name, while a standalone occurrence
still fires. -/
theorem privacy_term_diagnostics :
    (∀ rel content term m, (term, m) ∈ EXCLUDED →
      (privacyDocLines rel content).count (privFailLine rel term) =
        (if m content.toList then 1 else 0)) ∧
    ((check_privacy_terms [("a.json", "He is Polyamorous")]).1 = false ∧
      privFailLine "a.json" "polyamorous" ∈
        (check_privacy_terms [("a.json", "He is Polyamorous")]).2) ∧
    (boundariesTerm ("key: ethical_boundaries".toList) = false ∧
      boundariesTerm ("personal boundaries matter".toList) = true ∧
      (check_privacy_terms [("b.json", "respects ethical_boundaries")]).1 = true ∧
      (check_privacy_terms [("b.json", "respects boundaries")]).1 = false) := by
  refine ⟨?_, ⟨?_, ?_⟩, ⟨?_, ?_, ?_, ?_⟩⟩
  · intro rel content term m hmem
    exact count_privacy_flatMap rel content term m EXCLUDED excluded_terms_nodup hmem
  · rfl
  · exact List.Mem.head _
  · rfl
  · rfl
  · rfl
  · rfl

/-- Witness for C9's counting clause at a concrete (document, term) pair. -/
theorem privacy_term_diagnostics_witness :
    (privacyDocLines "w.json" "an atheist here").count (privFailLine "w.json" "atheist") =
      (if searchCI "atheist" ("an atheist here".toList) then 1 else 0) :=
  privacy_term_diagnostics.1 "w.json" "an atheist here" "atheist" (searchCI "atheist")
    (List.mem_cons_of_mem _ (List.mem_cons_of_mem _ (List.Mem.head _)))

/-! ## C2: duplicate ids are always detected -/

/-- The ids of a collection's records, as `record["id"]` subscripts (the
computation the duplicate scan performs). -/
def idsOf : List JValue → Except PyError (List JValue)
  | [] => .ok []
  | x :: xs =>
      match getItem x "id" with
      | .error e => .error e
      | .ok v =>
          match idsOf xs with
          | .error e => .error e
          | .ok vs => .ok (v :: vs)

/-- A successful id computation covers every record. -/
theorem idsOf_length {xs : List JValue} {ids : List JValue} (h : idsOf xs = .ok ids) :
    ids.length = xs.length := by
  induction xs generalizing ids with
  | nil =>
      unfold idsOf at h
      cases h
      rfl
  | cons x rest ih =>
      unfold idsOf at h
      cases hg : getItem x "id" with
      | error e => rw [hg] at h; cases h
      | ok v =>
          rw [hg] at h
          cases hr : idsOf rest with
          | error e => rw [hr] at h; cases h
          | ok vs =>
              rw [hr] at h
              cases h
              simp [ih hr]

/-- A record whose `id` subscript succeeds carries the `id` key. -/
theorem getItem_ok_hasKey {x v : JValue} (h : getItem x "id" = .ok v) :
    hasKey x "id" = true := by
  cases x with
  | obj kvs =>
      simp only [getItem] at h
      cases hf : kvs.find? (fun kv => kv.1 == "id") with
      | none => rw [hf] at h; cases h
      | some kv =>
          simp only [hasKey, List.any_eq_true]
          have hp := List.find?_some hf
          exact ⟨kv, List.mem_of_find?_eq_some hf, by simpa using hp⟩
  | null => simp [getItem] at h
  | bool a => simp [getItem] at h
  | num a => simp [getItem] at h
  | str a => simp [getItem] at h
  | arr a => simp [getItem] at h

/-- Decomposition of a completed cross-reference check into its four
error-collecting phases. -/
theorem check_xrefs_ok_parts {files : List (String × JValue)} {b : Bool} {lines : List String}
    (h : check_xrefs files = .ok (b, lines)) :
    ∃ e1 e2 e3 e4 : List String,
      relPart files "career/companies.json" "career/positions.json" "company_id"
          "positions: company_id" = .ok e1 ∧
      relPart files "career/positions.json" "career/projects.json" "position_id"
          "projects: position_id" = .ok e2 ∧
      relPart files "career/education.json" "career/courses.json" "associated_education_id"
          "courses: education_id" = .ok e3 ∧
      dupAll files = .ok e4 ∧
      (b = true ↔ (e1 ++ e2 ++ e3 ++ e4) = []) ∧
      (∀ x ∈ e1 ++ e2 ++ e3 ++ e4, b = false ∧ failTag x ∈ lines) := by
  unfold check_xrefs at h
  cases h1 : relPart files "career/companies.json" "career/positions.json" "company_id"
      "positions: company_id" with
  | error e => rw [h1] at h; cases h
  | ok e1 =>
  rw [h1] at h
  cases h2 : relPart files "career/positions.json" "career/projects.json" "position_id"
      "projects: position_id" with
  | error e => rw [h2] at h; cases h
  | ok e2 =>
  rw [h2] at h
  cases h3 : relPart files "career/education.json" "career/courses.json"
      "associated_education_id" "courses: education_id" with
  | error e => rw [h3] at h; cases h
  | ok e3 =>
  rw [h3] at h
  cases h4 : dupAll files with
  | error e => rw [h4] at h; cases h
  | ok e4 =>
  rw [h4] at h
  simp only [] at h
  refine ⟨e1, e2, e3, e4, rfl, rfl, rfl, rfl, ?_⟩
  split at h
  next hempty =>
    cases h
    constructor
    · exact ⟨fun _ => List.isEmpty_iff.mp hempty, fun _ => rfl⟩
    · intro x hx
      rw [List.isEmpty_iff.mp hempty] at hx
      cases hx
  next hempty =>
    cases h
    constructor
    · constructor
      · intro hfalse
        cases hfalse
      · intro hnil
        exact absurd (List.isEmpty_iff.mpr hnil) hempty
    · intro x hx
      exact ⟨rfl, List.mem_map_of_mem failTag hx⟩

/-- Every file's duplicate-scan output lands in the collected error list. -/
theorem dupAll_mem {files : List (String × JValue)} {e4 : List String}
    (h : dupAll files = .ok e4) {rel : String} {v : JValue} (hmem : (rel, v) ∈ files) :
    ∃ out, dupEntry rel v = .ok out ∧ ∀ x ∈ out, x ∈ e4 := by
  induction files generalizing e4 with
  | nil => cases hmem
  | cons p rest ih =>
      obtain ⟨r, d⟩ := p
      unfold dupAll at h
      cases h1 : dupEntry r d with
      | error e => rw [h1] at h; cases h
      | ok here =>
          rw [h1] at h
          cases h2 : dupAll rest with
          | error e => rw [h2] at h; cases h
          | ok there =>
              rw [h2] at h
              cases h
              rcases List.mem_cons.mp hmem with heq | hmem'
              · obtain ⟨hr, hd⟩ := Prod.mk.injEq .. ▸ heq
                subst hr
                subst hd
                exact ⟨here, h1, fun x hx => List.mem_append_left there hx⟩
              · obtain ⟨out, hout, hsub⟩ := ih h2 hmem'
                exact ⟨out, hout, fun x hx => List.mem_append_right here (hsub x hx)⟩

/-- The duplicate scan emits the diagnostic for any record whose id
equals (by Python `==`) an earlier id or a previously seen value. -/
theorem dupScan_detects {rel : String} {xs seen : List JValue} {out : List String}
    {ids : List JValue}
    (hscan : dupScan rel xs seen = .ok out)
    (hids : idsOf xs = .ok ids)
    (k : Nat) (hk : k < ids.length)
    (w : JValue) (hw : w ∈ seen ∨ ∃ i, i < k ∧ w = ids.getD i JValue.null)
    (hbeq : JValue.beq w (ids.getD k JValue.null) = true) :
    dupIdLine rel (ids.getD k JValue.null) ∈ out := by
  induction xs generalizing seen out ids k with
  | nil =>
      unfold idsOf at hids
      cases hids
      cases hk
  | cons x rest ih =>
      unfold dupScan at hscan
      unfold idsOf at hids
      cases hg : getItem x "id" with
      | error e => rw [hg] at hscan; cases hscan
      | ok v =>
          rw [hg] at hscan
          rw [hg] at hids
          simp only [] at hscan
          simp only [] at hids
          cases hm : setMem seen v with
          | error e => rw [hm] at hscan; cases hscan
          | ok m =>
              rw [hm] at hscan
              cases hs : dupScan rel rest (v :: seen) with
              | error e => rw [hs] at hscan; cases hscan
              | ok tail =>
                  rw [hs] at hscan
                  cases hscan
                  cases hr : idsOf rest with
                  | error e => rw [hr] at hids; cases hids
                  | ok ids' =>
                      rw [hr] at hids
                      cases hids
                      cases k with
                      | zero =>
                          rcases hw with hseen | ⟨i, hi, _⟩
                          · have hm2 : m = true := by
                              unfold setMem at hm
                              split at hm
                              next =>
                                cases hm
                                rw [List.any_eq_true]
                                refine ⟨w, hseen, ?_⟩
                                simpa using hbeq
                              next => cases hm
                            subst hm2
                            apply List.mem_append_left
                            simp
                          · cases hi
                      | succ k' =>
                          apply List.mem_append_right
                          refine ih hs hr k' (by simpa using hk) ?_ (by simpa using hbeq)
                          rcases hw with hseen | ⟨i, hi, hwi⟩
                          · exact Or.inl (List.mem_cons_of_mem v hseen)
                          · cases i with
                            | zero =>
                                refine Or.inl ?_
                                rw [hwi]
                                simp
                            | succ i' =>
                                refine Or.inr ⟨i', by omega, ?_⟩
                                simpa using hwi

/-- C2: whenever the cross-reference check completes, any list-valued
document whose records carry ids — regardless of whether it takes part in
a named relationship — is scanned for duplicates: a repeated id (by
Python equality) forces a failing verdict and a diagnostic naming that
id. -/
theorem duplicate_id_flagged (files : List (String × JValue)) (b : Bool) (lines : List String)
    (hok : check_xrefs files = .ok (b, lines))
    (rel : String) (xs : List JValue) (hmem : (rel, JValue.arr xs) ∈ files)
    (ids : List JValue) (hids : idsOf xs = .ok ids)
    (i j : Nat) (hij : i < j) (hj : j < ids.length)
    (hdup : JValue.beq (ids.getD i JValue.null) (ids.getD j JValue.null) = true) :
    b = false ∧ failTag (dupIdLine rel (ids.getD j JValue.null)) ∈ lines := by
  obtain ⟨e1, e2, e3, e4, _, _, _, h4, _, hall⟩ := check_xrefs_ok_parts hok
  obtain ⟨out, hout, hsub⟩ := dupAll_mem h4 hmem
  have hxs : ∃ x rest, xs = x :: rest := by
    cases xs with
    | nil =>
        unfold idsOf at hids
        cases hids
        cases hj
    | cons x rest => exact ⟨x, rest, rfl⟩
  obtain ⟨x, rest, rfl⟩ := hxs
  have hkey : hasKey x "id" = true := by
    unfold idsOf at hids
    cases hg : getItem x "id" with
    | error e => rw [hg] at hids; cases hids
    | ok v => exact getItem_ok_hasKey hg
  unfold dupEntry at hout
  simp only [] at hout
  rw [hkey] at hout
  simp only [if_true] at hout
  have hline : dupIdLine rel (ids.getD j JValue.null) ∈ out :=
    dupScan_detects hout hids j hj (ids.getD i JValue.null)
      (Or.inr ⟨i, hij, rfl⟩) hdup
  exact hall _ (List.mem_append_right (e1 ++ e2 ++ e3) (hsub _ hline))

/-- A corpus with a duplicated id inside a collection that takes part in
no named relationship. -/
def c2files : List (String × JValue) :=
  [("career/skills.json", .arr [.obj [("id", .str "a")], .obj [("id", .str "a")]])]

/-- Witness for C2: on the concrete duplicated-id corpus the check fails
and emits the diagnostic naming the id. -/
theorem duplicate_id_flagged_witness :
    false = false ∧
      failTag (dupIdLine "career/skills.json"
        (([JValue.str "a", JValue.str "a"]).getD 1 JValue.null)) ∈
        ["  [FAIL] career/skills.json: duplicate id \"a\""] :=
  duplicate_id_flagged c2files false ["  [FAIL] career/skills.json: duplicate id \"a\""] rfl
    "career/skills.json" [.obj [("id", .str "a")], .obj [("id", .str "a")]]
    (List.Mem.head _) [.str "a", .str "a"] rfl 0 1 (by omega) (by simp) rfl

/-! ## C3: foreign-key resolution -/

/-- The diagnostic a single source record contributes to a relationship
scan: present and truthy reference values that resolve to no target id
yield the missing-reference line; absent or falsy references yield
nothing. -/
def relLineOf (label field : String) (cids : List JValue) (p : JValue) : Option String :=
  match dictGet p field with
  | .ok (some v) =>
      if truthy v && !(cids.any (fun w => JValue.beq w v)) then some (relMissingLine label v)
      else none
  | _ => none

/-- The three named relationships of the script, as
(target key, source key, field, diagnostic label). -/
def xrefRelations : List (String × String × String × String) :=
  [("career/companies.json", "career/positions.json", "company_id", "positions: company_id"),
   ("career/positions.json", "career/projects.json", "position_id", "projects: position_id"),
   ("career/education.json", "career/courses.json", "associated_education_id",
     "courses: education_id")]

/-- A completed relationship scan emits exactly the per-record
diagnostics of `relLineOf`, in source order. -/
theorem relErrors_char {label field : String} {cids : List JValue} {ps : List JValue}
    {out : List String} (h : relErrors label field cids ps = .ok out) :
    out = ps.filterMap (relLineOf label field cids) := by
  induction ps generalizing out with
  | nil =>
      unfold relErrors at h
      cases h
      rfl
  | cons p rest ih =>
      unfold relErrors at h
      cases hd : dictGet p field with
      | error e => rw [hd] at h; cases h
      | ok g =>
          rw [hd] at h
          simp only [] at h
          rw [List.filterMap_cons]
          cases g with
          | none =>
              simp only [] at h
              cases hr : relErrors label field cids rest with
              | error e => rw [hr] at h; cases h
              | ok there =>
                  rw [hr] at h
                  cases h
                  have hline : relLineOf label field cids p = none := by
                    unfold relLineOf
                    rw [hd]
                  rw [hline, ih hr]
                  rfl
          | some v =>
              simp only [] at h
              by_cases htr : truthy v = true
              · rw [htr] at h
                simp only [if_true] at h
                cases hm : setMem cids v with
                | error e => rw [hm] at h; cases h
                | ok m =>
                    rw [hm] at h
                    simp only [] at h
                    cases hr : relErrors label field cids rest with
                    | error e => rw [hr] at h; cases h
                    | ok there =>
                        rw [hr] at h
                        cases h
                        have hmval : m = cids.any (fun w => JValue.beq w v) := by
                          unfold setMem at hm
                          split at hm
                          next => cases hm; rfl
                          next => cases hm
                        have hline : relLineOf label field cids p =
                            (if m then none else some (relMissingLine label v)) := by
                          unfold relLineOf
                          rw [hd]
                          simp only []
                          rw [htr, hmval]
                          cases hval : cids.any (fun w => JValue.beq w v) <;> simp
                        rw [hline, ih hr]
                        cases m <;> rfl
              · rw [Bool.not_eq_true] at htr
                rw [htr] at h
                simp only [Bool.false_eq_true, if_false] at h
                cases hr : relErrors label field cids rest with
                | error e => rw [hr] at h; cases h
                | ok there =>
                    rw [hr] at h
                    cases h
                    have hline : relLineOf label field cids p = none := by
                      unfold relLineOf
                      rw [hd]
                      simp only []
                      rw [htr]
                      simp
                    rw [hline, ih hr]
                    rfl

/-- Opening a completed relationship block whose two documents are
present list-valued collections. -/
theorem relPart_ok_arr {files : List (String × JValue)} {tgtKey srcKey field label : String}
    {ek : List String}
    (h : relPart files tgtKey srcKey field label = .ok ek)
    {ts ss : List JValue}
    (ht : lookupFile files tgtKey = some (.arr ts))
    (hs : lookupFile files srcKey = some (.arr ss)) :
    ∃ ids, buildIdSet ts = .ok ids ∧ relErrors label field ids ss = .ok ek := by
  unfold relPart at h
  rw [ht, hs] at h
  simp only [pyIter] at h
  cases hb : buildIdSet ts with
  | error e => rw [hb] at h; cases h
  | ok ids =>
      rw [hb] at h
      simp only [] at h
      exact ⟨ids, rfl, h⟩

/-- C3: whenever the cross-reference check completes and a named
relationship's two documents are present as collections, the relationship
scan examines exactly the source records carrying a present, truthy
reference value: its diagnostics are characterized record by record (a
record with an absent or falsy reference contributes nothing), and any
record whose reference resolves to no target id forces a failing verdict
with a diagnostic naming the field label and the value. -/
theorem foreign_key_check (files : List (String × JValue)) (b : Bool) (lines : List String)
    (hok : check_xrefs files = .ok (b, lines))
    (tgtKey srcKey field label : String)
    (hrel : (tgtKey, srcKey, field, label) ∈ xrefRelations)
    (ts ss : List JValue)
    (ht : lookupFile files tgtKey = some (.arr ts))
    (hs : lookupFile files srcKey = some (.arr ss)) :
    ∃ ids out, buildIdSet ts = .ok ids ∧
      relErrors label field ids ss = .ok out ∧
      out = ss.filterMap (relLineOf label field ids) ∧
      (∀ x ∈ out, b = false ∧ failTag x ∈ lines) ∧
      (∀ p ∈ ss, ∀ v, dictGet p field = .ok (some v) → truthy v = true →
        ids.any (fun w => JValue.beq w v) = false →
        b = false ∧ failTag (relMissingLine label v) ∈ lines) := by
  obtain ⟨e1, e2, e3, e4, hp1, hp2, hp3, _, _, hall⟩ := check_xrefs_ok_parts hok
  have hrest : ∀ ids out, buildIdSet ts = .ok ids → relErrors label field ids ss = .ok out →
      (∀ x ∈ out, x ∈ e1 ++ e2 ++ e3 ++ e4) →
      ∃ ids2 out2, buildIdSet ts = .ok ids2 ∧
        relErrors label field ids2 ss = .ok out2 ∧
        out2 = ss.filterMap (relLineOf label field ids2) ∧
        (∀ x ∈ out2, b = false ∧ failTag x ∈ lines) ∧
        (∀ p ∈ ss, ∀ v, dictGet p field = .ok (some v) → truthy v = true →
          ids2.any (fun w => JValue.beq w v) = false →
          b = false ∧ failTag (relMissingLine label v) ∈ lines) := by
    intro ids out hids hout hsub
    refine ⟨ids, out, hids, hout, relErrors_char hout, ?_, ?_⟩
    · intro x hx
      exact hall x (hsub x hx)
    · intro p hp v hv htr hany
      have hline : relLineOf label field ids p = some (relMissingLine label v) := by
        unfold relLineOf
        rw [hv]
        simp only []
        rw [htr, hany]
        simp
      have hxin : relMissingLine label v ∈ out := by
        rw [relErrors_char hout]
        exact List.mem_filterMap.mpr ⟨p, hp, hline⟩
      exact hall _ (hsub _ hxin)
  rcases List.mem_cons.mp hrel with heq | hrel2
  · simp only [Prod.mk.injEq] at heq
    obtain ⟨rfl, rfl, rfl, rfl⟩ := heq
    obtain ⟨ids, hids, herr⟩ := relPart_ok_arr hp1 ht hs
    exact hrest ids e1 hids herr (fun x hx =>
      List.mem_append_left _ (List.mem_append_left _ (List.mem_append_left _ hx)))
  rcases List.mem_cons.mp hrel2 with heq | hrel3
  · simp only [Prod.mk.injEq] at heq
    obtain ⟨rfl, rfl, rfl, rfl⟩ := heq
    obtain ⟨ids, hids, herr⟩ := relPart_ok_arr hp2 ht hs
    exact hrest ids e2 hids herr (fun x hx =>
      List.mem_append_left _ (List.mem_append_left _ (List.mem_append_right _ hx)))
  rcases List.mem_cons.mp hrel3 with heq | hrel4
  · simp only [Prod.mk.injEq] at heq
    obtain ⟨rfl, rfl, rfl, rfl⟩ := heq
    obtain ⟨ids, hids, herr⟩ := relPart_ok_arr hp3 ht hs
    exact hrest ids e3 hids herr (fun x hx =>
      List.mem_append_left _ (List.mem_append_right _ hx))
  cases hrel4

/-- A corpus with one dangling foreign key: the positions record
references company id `zzz`, which no companies record carries. -/
def c3files : List (String × JValue) :=
  [("career/companies.json", .arr [.obj [("id", .str "c1")]]),
   ("career/positions.json", .arr [.obj [("id", .str "p1"), ("company_id", .str "zzz")]])]

/-- Witness for C3 at the concrete dangling-reference corpus. -/
theorem foreign_key_check_witness :
    ∃ ids out, buildIdSet [JValue.obj [("id", JValue.str "c1")]] = .ok ids ∧
      relErrors "positions: company_id" "company_id" ids
        [JValue.obj [("id", JValue.str "p1"), ("company_id", JValue.str "zzz")]] = .ok out ∧
      out = [JValue.obj [("id", JValue.str "p1"), ("company_id", JValue.str "zzz")]].filterMap
        (relLineOf "positions: company_id" "company_id" ids) ∧
      (∀ x ∈ out, false = false ∧
        failTag x ∈ ["  [FAIL] positions: company_id \"zzz\" missing"]) ∧
      (∀ p ∈ [JValue.obj [("id", JValue.str "p1"), ("company_id", JValue.str "zzz")]],
        ∀ v, dictGet p "company_id" = .ok (some v) → truthy v = true →
        ids.any (fun w => JValue.beq w v) = false →
        false = false ∧ failTag (relMissingLine "positions: company_id" v) ∈
          ["  [FAIL] positions: company_id \"zzz\" missing"]) :=
  foreign_key_check c3files false ["  [FAIL] positions: company_id \"zzz\" missing"] rfl
    "career/companies.json" "career/positions.json" "company_id" "positions: company_id"
    (List.Mem.head _)
    [JValue.obj [("id", JValue.str "c1")]]
    [JValue.obj [("id", JValue.str "p1"), ("company_id", JValue.str "zzz")]]
    rfl rfl

/-! ## C6: empty documents and the data-quality check -/

/-- A corpus holding an empty companies Collection next to a positions
record that references a company id. -/
def c6with : List (String × JValue) :=
  [("career/companies.json", .arr []),
   ("career/positions.json", .arr [.obj [("id", .str "p1"), ("company_id", .str "c1")]])]

/-- The same corpus without the empty companies document. -/
def c6without : List (String × JValue) :=
  [("career/positions.json", .arr [.obj [("id", .str "p1"), ("company_id", .str "c1")]])]

/-- C6 counterexample: an empty-sequence document does fail the
data-quality check, but its presence can also make the cross-reference
check fail: with the empty companies Collection present the positions
reference `c1` dangles and the cross-reference check fails, while on the
same corpus without that empty document the cross-reference check passes.
So an empty document's presence is not confined to the data-quality
verdict. -/
theorem empty_doc_claim_false :
    ("career/companies.json", JValue.arr []) ∈ c6with ∧
    (check_data_quality c6with).1 = false ∧
    check_xrefs c6with = .ok (false, ["  [FAIL] positions: company_id \"c1\" missing"]) ∧
    check_xrefs c6without =
      .ok (true, ["  [PASS] All cross-references resolve, no duplicate IDs"]) :=
  ⟨List.Mem.head _, rfl, rfl, rfl⟩

/-- The failing-line list of a pattern check is empty iff every document's
contribution is empty (sorting does not affect membership). -/
theorem sorted_flatMap_nil_iff {α : Type} (g : String × α → List String)
    (cm : List (String × α)) :
    ((sortPairs cm).flatMap g = [] ↔ ∀ rc ∈ cm, g rc = []) := by
  rw [List.flatMap_eq_nil_iff]
  constructor
  · intro h rc hrc
    exact h rc (((List.perm_insertionSort _ cm).mem_iff).mpr hrc)
  · intro h rc hrc
    exact h rc (((List.perm_insertionSort _ cm).mem_iff).mp hrc)

/-- The boolean verdict of `check_privacy_terms` is the emptiness of its
failing-line list. -/
theorem check_privacy_terms_fst (cm : List (String × String)) :
    (check_privacy_terms cm).1 =
      ((sortPairs cm).flatMap (fun rc => privacyDocLines rc.1 rc.2)).isEmpty := by
  simp only [check_privacy_terms]
  split
  next h => rw [h]
  next h => simp [h]

/-- The boolean verdict of `check_pii` is the emptiness of its
failing-line list. -/
theorem check_pii_fst (cm : List (String × String)) :
    (check_pii cm).1 =
      ((sortPairs cm).flatMap (fun rc => piiDocLines rc.1 rc.2)).isEmpty := by
  simp only [check_pii]
  split
  next h => rw [h]
  next h => simp [h]

/-- The boolean verdict of `check_family_details` is the emptiness of its
failing-line list. -/
theorem check_family_details_fst (cm : List (String × String)) :
    (check_family_details cm).1 =
      ((sortPairs cm).flatMap (fun rc => familyDocLines rc.1 rc.2)).isEmpty := by
  simp only [check_family_details]
  split
  next h => rw [h]
  next h => simp [h]

/-- The boolean verdict of `check_secrets` is the emptiness of its
failing-line list. -/
theorem check_secrets_fst (cm : List (String × String)) :
    (check_secrets cm).1 =
      ((sortPairs cm).flatMap (fun rc => secretsDocLines rc.1 rc.2)).isEmpty := by
  simp only [check_secrets]
  split
  next h => rw [h]
  next h => simp [h]

/-- A pattern-check verdict is unchanged by adding a document whose
per-document contribution is empty. -/
theorem pattern_verdict_cons {α : Type} (g : String × α → List String)
    (cm : List (String × α)) (p : String × α) (hp : g p = []) :
    ((sortPairs (p :: cm)).flatMap g).isEmpty = ((sortPairs cm).flatMap g).isEmpty := by
  cases h1 : ((sortPairs (p :: cm)).flatMap g).isEmpty
  · cases h2 : ((sortPairs cm).flatMap g).isEmpty
    · rfl
    · exfalso
      rw [List.isEmpty_iff] at h2
      have hall := (sorted_flatMap_nil_iff g cm).mp h2
      have : (sortPairs (p :: cm)).flatMap g = [] := by
        rw [sorted_flatMap_nil_iff]
        intro rc hrc
        rcases List.mem_cons.mp hrc with rfl | hrc2
        · exact hp
        · exact hall rc hrc2
      rw [this] at h1
      cases h1
  · cases h2 : ((sortPairs cm).flatMap g).isEmpty
    · exfalso
      rw [List.isEmpty_iff] at h1
      have hall := (sorted_flatMap_nil_iff g (p :: cm)).mp h1
      have : (sortPairs cm).flatMap g = [] := by
        rw [sorted_flatMap_nil_iff]
        intro rc hrc
        exact hall rc (List.mem_cons_of_mem p hrc)
      rw [this] at h2
      cases h2
    · rfl

/-- The boolean verdict of `check_data_quality` is the emptiness of its
failing-line list. -/
theorem check_data_quality_fst (files : List (String × JValue)) :
    (check_data_quality files).1 =
      ((sortPairs files).flatMap (fun rv => qualityDocLines rv.1 rv.2)).isEmpty := by
  simp only [check_data_quality]
  split
  next h => rw [h]
  next h => simp [h]

/-- A document contributes no data-quality diagnostic iff its parsed
value is not an empty container. -/
theorem qualityDocLines_nil_iff (rel : String) (v : JValue) :
    qualityDocLines rel v = [] ↔ v ≠ JValue.arr [] ∧ v ≠ JValue.obj [] := by
  cases v with
  | null => simp [qualityDocLines]
  | bool a => simp [qualityDocLines]
  | num a => simp [qualityDocLines]
  | str a => simp [qualityDocLines]
  | arr xs =>
      cases xs with
      | nil => simp [qualityDocLines]
      | cons a l => simp [qualityDocLines]
  | obj kvs =>
      cases kvs with
      | nil => simp [qualityDocLines]
      | cons a l => simp [qualityDocLines]

/-- Adding a corpus entry can only shrink the missing-file list. -/
theorem lookupFile_cons_isSome {files : List (String × JValue)} {f : String}
    (h : (lookupFile files f).isSome = true) (rel : String) (d : JValue) :
    (lookupFile ((rel, d) :: files) f).isSome = true := by
  unfold lookupFile at h ⊢
  rw [List.find?_cons]
  split
  · rfl
  · exact h

/-- C6 (amended): an empty-sequence or empty-mapping document fails the
data-quality check with a diagnostic naming it, the data-quality check
passes iff no document is empty, and no other check flags the empty
document itself: its raw text (`[]` or `{}`) contributes no pattern-check
diagnostic and leaves every pattern-check verdict unchanged, the
duplicate-id scan skips it, and its presence never makes the completeness
check fail.  (An empty Collection that is the target of a named
relationship can still make the cross-reference check fail for the
records referencing it, so the claim's "no other check" is amended to
exclude that case.) -/
theorem empty_doc_quality_amended :
    (∀ (files : List (String × JValue)) (rel : String),
      ((rel, JValue.arr []) ∈ files →
        (check_data_quality files).1 = false ∧
          ("  [FAIL] " ++ rel ++ ": empty array") ∈ (check_data_quality files).2) ∧
      ((rel, JValue.obj []) ∈ files →
        (check_data_quality files).1 = false ∧
          ("  [FAIL] " ++ rel ++ ": empty object") ∈ (check_data_quality files).2)) ∧
    (∀ files : List (String × JValue),
      ((check_data_quality files).1 = true ↔
        ∀ p ∈ files, p.2 ≠ JValue.arr [] ∧ p.2 ≠ JValue.obj [])) ∧
    (∀ rel : String,
      privacyDocLines rel "[]" = [] ∧ piiDocLines rel "[]" = [] ∧
      familyDocLines rel "[]" = [] ∧ secretsDocLines rel "[]" = [] ∧
      privacyDocLines rel "\x7b\x7d" = [] ∧ piiDocLines rel "\x7b\x7d" = [] ∧
      familyDocLines rel "\x7b\x7d" = [] ∧ secretsDocLines rel "\x7b\x7d" = []) ∧
    (∀ rel : String,
      dupEntry rel (JValue.arr []) = .ok [] ∧ dupEntry rel (JValue.obj []) = .ok []) ∧
    (∀ (cm : List (String × String)) (rel content : String),
      (content = "[]" ∨ content = "\x7b\x7d") →
      (check_privacy_terms ((rel, content) :: cm)).1 = (check_privacy_terms cm).1 ∧
      (check_pii ((rel, content) :: cm)).1 = (check_pii cm).1 ∧
      (check_family_details ((rel, content) :: cm)).1 = (check_family_details cm).1 ∧
      (check_secrets ((rel, content) :: cm)).1 = (check_secrets cm).1) ∧
    (∀ (files : List (String × JValue)) (rel : String) (d : JValue),
      (check_completeness files).1 = true →
      (check_completeness ((rel, d) :: files)).1 = true) := by
  refine ⟨?_, ?_, ?_, ?_, ?_, ?_⟩
  · intro files rel
    constructor
    · intro hmem
      have hline : ("  [FAIL] " ++ rel ++ ": empty array") ∈
          (sortPairs files).flatMap (fun rv => qualityDocLines rv.1 rv.2) :=
        List.mem_flatMap.mpr ⟨(rel, JValue.arr []),
          ((List.perm_insertionSort _ files).mem_iff).mpr hmem, by simp [qualityDocLines]⟩
      have hne : ¬((sortPairs files).flatMap
          (fun rv => qualityDocLines rv.1 rv.2)).isEmpty = true := by
        rw [List.isEmpty_iff]
        intro hnil
        rw [hnil] at hline
        cases hline
      simp only [check_data_quality]
      split
      next h => exact absurd h hne
      next h => exact ⟨rfl, hline⟩
    · intro hmem
      have hline : ("  [FAIL] " ++ rel ++ ": empty object") ∈
          (sortPairs files).flatMap (fun rv => qualityDocLines rv.1 rv.2) :=
        List.mem_flatMap.mpr ⟨(rel, JValue.obj []),
          ((List.perm_insertionSort _ files).mem_iff).mpr hmem, by simp [qualityDocLines]⟩
      have hne : ¬((sortPairs files).flatMap
          (fun rv => qualityDocLines rv.1 rv.2)).isEmpty = true := by
        rw [List.isEmpty_iff]
        intro hnil
        rw [hnil] at hline
        cases hline
      simp only [check_data_quality]
      split
      next h => exact absurd h hne
      next h => exact ⟨rfl, hline⟩
  · intro files
    rw [check_data_quality_fst, List.isEmpty_iff, sorted_flatMap_nil_iff]
    constructor
    · intro h p hp
      exact (qualityDocLines_nil_iff p.1 p.2).mp (h p hp)
    · intro h p hp
      exact (qualityDocLines_nil_iff p.1 p.2).mpr (h p hp)
  · intro rel
    exact ⟨rfl, rfl, rfl, rfl, rfl, rfl, rfl, rfl⟩
  · intro rel
    exact ⟨rfl, rfl⟩
  · intro cm rel content hcontent
    have hpriv : privacyDocLines rel content = [] := by
      rcases hcontent with rfl | rfl
      · rfl
      · rfl
    have hpii : piiDocLines rel content = [] := by
      rcases hcontent with rfl | rfl
      · rfl
      · rfl
    have hfam : familyDocLines rel content = [] := by
      rcases hcontent with rfl | rfl
      · rfl
      · rfl
    have hsec : secretsDocLines rel content = [] := by
      rcases hcontent with rfl | rfl
      · rfl
      · rfl
    refine ⟨?_, ?_, ?_, ?_⟩
    · rw [check_privacy_terms_fst, check_privacy_terms_fst]
      exact pattern_verdict_cons _ cm (rel, content) hpriv
    · rw [check_pii_fst, check_pii_fst]
      exact pattern_verdict_cons _ cm (rel, content) hpii
    · rw [check_family_details_fst, check_family_details_fst]
      exact pattern_verdict_cons _ cm (rel, content) hfam
    · rw [check_secrets_fst, check_secrets_fst]
      exact pattern_verdict_cons _ cm (rel, content) hsec
  · intro files rel d h
    simp only [check_completeness] at h ⊢
    split at h
    next hempty =>
      split
      next => rfl
      next hempty2 =>
        exfalso
        apply hempty2
        rw [List.isEmpty_iff, List.filter_eq_nil_iff] at hempty ⊢
        intro f hf
        have h2 := hempty f hf
        have h3 : (lookupFile files f).isSome = true := by
          cases hcase : (lookupFile files f).isSome
          · exact absurd (by simp [hcase]) h2
          · rfl
        have h4 := lookupFile_cons_isSome h3 rel d
        simp [h4]
    next => cases h

/-- Witness for C6 at a concrete one-document corpus holding an empty
array. -/
theorem empty_doc_quality_amended_witness :
    (check_data_quality [("x.json", JValue.arr [])]).1 = false ∧
      ("  [FAIL] " ++ "x.json" ++ ": empty array") ∈
        (check_data_quality [("x.json", JValue.arr [])]).2 :=
  (empty_doc_quality_amended.1 [("x.json", JValue.arr [])] "x.json").1 (List.Mem.head _)

/-! ## C7: the five corpus invariants -/

/-- The ids carried by a collection's records (records that are mappings
with an `id` field). -/
def collectionIds (xs : List JValue) : List JValue :=
  xs.filterMap (fun r =>
    match r with
    | .obj kvs => (kvs.find? (fun kv => kv.1 == "id")).map (fun kv => kv.2)
    | _ => none)

/-- No value of the list repeats, by Python equality. -/
def noDupBeq : List JValue → Bool
  | [] => true
  | x :: xs => !(xs.any (fun y => JValue.beq x y)) && noDupBeq xs

/-- Spec §3 invariant 1 for one document: within any Collection carrying
`id` fields, all ids are unique.  (Stated from the spec's words; compared
against the code's duplicate scan.) -/
def inv1doc (v : JValue) : Bool :=
  match v with
  | .arr xs => noDupBeq (collectionIds xs)
  | _ => true

/-- Spec §3 invariant 1 over the corpus. -/
def SpecInv1 (files : List (String × JValue)) : Prop :=
  ∀ p ∈ files, inv1doc p.2 = true

/-- Spec §3 invariant 2 for one named relationship: every present,
non-empty foreign-key value of a source Record resolves to an existing id
of the referenced Collection.  (Stated from the spec's words.) -/
def inv2rel (files : List (String × JValue)) (r : String × String × String × String) : Bool :=
  match lookupFile files r.1, lookupFile files r.2.1 with
  | some (.arr ts), some (.arr ss) =>
      ss.all (fun p =>
        match p with
        | .obj kvs =>
            match (kvs.find? (fun kv => kv.1 == r.2.2.1)).map (fun kv => kv.2) with
            | some v => !truthy v || (collectionIds ts).any (fun w => JValue.beq w v)
            | none => true
        | _ => true)
  | _, _ => true

/-- Spec §3 invariant 2 over the three named relationships. -/
def SpecInv2 (files : List (String × JValue)) : Prop :=
  ∀ r ∈ xrefRelations, inv2rel files r = true

/-- Spec §3 invariant 3: the fixed manifest is fully present. -/
def SpecInv3 (files : List (String × JValue)) : Prop :=
  ∀ f ∈ expectedFiles, (lookupFile files f).isSome = true

/-- An empty parsed container. -/
def emptyDoc (v : JValue) : Bool :=
  match v with
  | .arr [] => true
  | .obj [] => true
  | _ => false

/-- Spec §3 invariant 4: no document's parsed value is an empty sequence
or an empty mapping. -/
def SpecInv4 (files : List (String × JValue)) : Prop :=
  ∀ p ∈ files, emptyDoc p.2 = false

/-- A raw text matching none of the disallowed-content patterns of the
four pattern checks. -/
def docPatternClean (content : String) : Bool :=
  EXCLUDED.all (fun tm => !tm.2 content.toList) &&
  (emailFindall content).isEmpty &&
  !phoneSearch content.toList &&
  !ssnSearch content.toList &&
  FAMILY.all (fun pd => scanCount pd.1 content.toList == 0) &&
  SECRETS.all (fun pd => !pd.1 content.toList)

/-- Spec §3 invariant 5: no document's raw text matches any
disallowed-content pattern. -/
def SpecInv5 (c : Corpus) : Prop :=
  ∀ d ∈ c, docPatternClean d.content = true

/-- A record that is a mapping carrying a hashable `id` value. -/
def hasHashableId (r : JValue) : Bool :=
  match r with
  | .obj kvs =>
      match (kvs.find? (fun kv => kv.1 == "id")).map (fun kv => kv.2) with
      | some v => hashable v
      | none => false
  | _ => false

/-- A relationship source record the scan can process without a dynamic
error: a mapping whose reference value, when present and truthy, is
hashable. -/
def srcRecWF (field : String) (p : JValue) : Bool :=
  match p with
  | .obj kvs =>
      match (kvs.find? (fun kv => kv.1 == field)).map (fun kv => kv.2) with
      | some v => !truthy v || hashable v
      | none => true
  | _ => false

/-- Well-formedness of one named relationship when both documents are
present: both are lists, target records carry hashable ids, source
records are processable mappings. -/
def relWF (files : List (String × JValue)) (r : String × String × String × String) : Bool :=
  match lookupFile files r.1, lookupFile files r.2.1 with
  | some tv, some sv =>
      (match tv with
       | .arr ts => ts.all hasHashableId
       | _ => false) &&
      (match sv with
       | .arr ss => ss.all (srcRecWF r.2.2.1)
       | _ => false)
  | _, _ => true

/-- Well-formedness of one document for the duplicate scan: when the scan
guard selects it, every record carries a hashable id. -/
def dupWF (v : JValue) : Bool :=
  match v with
  | .arr (x :: xs) => !hasKey x "id" || (x :: xs).all hasHashableId
  | _ => true

/-- The well-formedness precondition under which the cross-reference
check cannot raise a dynamic error. -/
def XrefWF (files : List (String × JValue)) : Prop :=
  (∀ r ∈ xrefRelations, relWF files r = true) ∧ (∀ p ∈ files, dupWF p.2 = true)

instance specInv1Dec (files : List (String × JValue)) : Decidable (SpecInv1 files) :=
  inferInstanceAs (Decidable (∀ p ∈ files, inv1doc p.2 = true))

instance specInv2Dec (files : List (String × JValue)) : Decidable (SpecInv2 files) :=
  inferInstanceAs (Decidable (∀ r ∈ xrefRelations, inv2rel files r = true))

instance specInv3Dec (files : List (String × JValue)) : Decidable (SpecInv3 files) :=
  inferInstanceAs (Decidable (∀ f ∈ expectedFiles, (lookupFile files f).isSome = true))

instance specInv4Dec (files : List (String × JValue)) : Decidable (SpecInv4 files) :=
  inferInstanceAs (Decidable (∀ p ∈ files, emptyDoc p.2 = false))

instance specInv5Dec (c : Corpus) : Decidable (SpecInv5 c) :=
  inferInstanceAs (Decidable (∀ d ∈ c, docPatternClean d.content = true))

instance xrefWFDec (files : List (String × JValue)) : Decidable (XrefWF files) :=
  inferInstanceAs (Decidable ((∀ r ∈ xrefRelations, relWF files r = true) ∧
    (∀ p ∈ files, dupWF p.2 = true)))

/-- A corpus satisfying all five §3 invariants on which the run
nevertheless aborts: all manifest documents are present, non-empty and
textually clean, all present ids are unique and no foreign key dangles —
but the second companies record carries no `id` field, which the
invariants do not forbid. -/
def c7bad : Corpus :=
  expectedFiles.map (fun f =>
    if f == "career/companies.json" then
      ⟨f, "[\x7b\"id\": \"c1\"\x7d, \x7b\"x\": \"y\"\x7d]",
        .arr [.obj [("id", .str "c1")], .obj [("x", .str "y")]]⟩
    else if f == "career/positions.json" then
      ⟨f, "[\x7b\"id\": \"p1\"\x7d]", .arr [.obj [("id", .str "p1")]]⟩
    else if f == "career/education.json" then
      ⟨f, "[\x7b\"id\": \"e1\"\x7d]", .arr [.obj [("id", .str "e1")]]⟩
    else if f == "career/projects.json" then
      ⟨f, "[\x7b\"id\": \"j1\"\x7d]", .arr [.obj [("id", .str "j1")]]⟩
    else if f == "career/courses.json" then
      ⟨f, "[\x7b\"id\": \"k1\"\x7d]", .arr [.obj [("id", .str "k1")]]⟩
    else ⟨f, "\x7b\"a\": \"b\"\x7d", .obj [("a", .str "b")]⟩)

/-- C7 counterexample: the five §3 invariants do not suffice for an
all-pass run — `c7bad` satisfies every one of them, yet the run aborts
with a `KeyError` in the cross-reference check (so there is no report and
no exit status 0). -/
theorem invariants_claim_false :
    SpecInv1 (filesOf c7bad) ∧ SpecInv2 (filesOf c7bad) ∧ SpecInv3 (filesOf c7bad) ∧
    SpecInv4 (filesOf c7bad) ∧ SpecInv5 c7bad ∧
    auditMain c7bad = .error (.keyError "id") :=
  ⟨by decide, by decide, by decide, by decide, by decide, rfl⟩

/-- Unpacking a clean document's per-pattern facts. -/
theorem docPatternClean_parts {content : String} (h : docPatternClean content = true) :
    (∀ tm ∈ EXCLUDED, tm.2 content.toList = false) ∧
    emailFindall content = [] ∧
    phoneSearch content.toList = false ∧
    ssnSearch content.toList = false ∧
    (∀ pd ∈ FAMILY, scanCount pd.1 content.toList = 0) ∧
    (∀ pd ∈ SECRETS, pd.1 content.toList = false) := by
  unfold docPatternClean at h
  simp only [Bool.and_eq_true, List.all_eq_true, Bool.not_eq_true', List.isEmpty_iff,
    beq_iff_eq] at h
  obtain ⟨⟨⟨⟨⟨h1, h2⟩, h3⟩, h4⟩, h5⟩, h6⟩ := h
  exact ⟨h1, h2, h3, h4, h5, h6⟩

/-- A clean document contributes no privacy-term diagnostic. -/
theorem privacyDocLines_nil {rel content : String}
    (h : ∀ tm ∈ EXCLUDED, tm.2 content.toList = false) :
    privacyDocLines rel content = [] := by
  unfold privacyDocLines
  rw [List.flatMap_eq_nil_iff]
  intro tm htm
  have hh : tm.2 content.data = false := h tm htm
  simp [hh]

/-- A clean document contributes no PII diagnostic. -/
theorem piiDocLines_nil {rel content : String}
    (he : emailFindall content = []) (hp : phoneSearch content.toList = false)
    (hs : ssnSearch content.toList = false) :
    piiDocLines rel content = [] := by
  unfold piiDocLines
  rw [he, hp, hs]
  rfl

/-- A clean document contributes no family-detail diagnostic. -/
theorem familyDocLines_nil {rel content : String}
    (h : ∀ pd ∈ FAMILY, scanCount pd.1 content.toList = 0) :
    familyDocLines rel content = [] := by
  unfold familyDocLines
  rw [List.flatMap_eq_nil_iff]
  intro pd hpd
  have hh : scanCount pd.1 content.data = 0 := h pd hpd
  simp [hh]

/-- A clean document contributes no secrets diagnostic. -/
theorem secretsDocLines_nil {rel content : String}
    (h : ∀ pd ∈ SECRETS, pd.1 content.toList = false) :
    secretsDocLines rel content = [] := by
  unfold secretsDocLines
  rw [List.flatMap_eq_nil_iff]
  intro pd hpd
  have hh : pd.1 content.data = false := h pd hpd
  simp [hh]

/-- A corpus of clean documents makes the privacy-term check pass. -/
theorem check_privacy_terms_pass {cm : List (String × String)}
    (h : ∀ rc ∈ cm, privacyDocLines rc.1 rc.2 = []) :
    check_privacy_terms cm = (true, ["  [PASS] No excluded privacy terms found"]) := by
  have hnil : (sortPairs cm).flatMap (fun rc => privacyDocLines rc.1 rc.2) = [] :=
    (sorted_flatMap_nil_iff _ cm).mpr h
  simp only [check_privacy_terms]
  rw [hnil]
  rfl

/-- A corpus of clean documents makes the PII check pass. -/
theorem check_pii_pass {cm : List (String × String)}
    (h : ∀ rc ∈ cm, piiDocLines rc.1 rc.2 = []) :
    check_pii cm = (true, ["  [PASS] No email, phone, or SSN exposure"]) := by
  have hnil : (sortPairs cm).flatMap (fun rc => piiDocLines rc.1 rc.2) = [] :=
    (sorted_flatMap_nil_iff _ cm).mpr h
  simp only [check_pii]
  rw [hnil]
  rfl

/-- A corpus of clean documents makes the family-details check pass. -/
theorem check_family_details_pass {cm : List (String × String)}
    (h : ∀ rc ∈ cm, familyDocLines rc.1 rc.2 = []) :
    check_family_details cm = (true, ["  [PASS] Family details properly generalized"]) := by
  have hnil : (sortPairs cm).flatMap (fun rc => familyDocLines rc.1 rc.2) = [] :=
    (sorted_flatMap_nil_iff _ cm).mpr h
  simp only [check_family_details]
  rw [hnil]
  rfl

/-- A corpus of clean documents makes the secrets check pass. -/
theorem check_secrets_pass {cm : List (String × String)}
    (h : ∀ rc ∈ cm, secretsDocLines rc.1 rc.2 = []) :
    check_secrets cm = (true, ["  [PASS] No secrets or credentials detected"]) := by
  have hnil : (sortPairs cm).flatMap (fun rc => secretsDocLines rc.1 rc.2) = [] :=
    (sorted_flatMap_nil_iff _ cm).mpr h
  simp only [check_secrets]
  rw [hnil]
  rfl

/-- A fully present manifest makes the completeness check pass. -/
theorem check_completeness_pass {files : List (String × JValue)}
    (h : ∀ f ∈ expectedFiles, (lookupFile files f).isSome = true) :
    check_completeness files =
      (true, ["  [PASS] All " ++ toString expectedFiles.length ++ " expected files present"]) := by
  have hnil : expectedFiles.filter (fun f => !(lookupFile files f).isSome) = [] :=
    List.filter_eq_nil_iff.mpr (fun f hf => by simp [h f hf])
  simp only [check_completeness]
  rw [hnil]
  rfl

/-- A non-empty document contributes no data-quality diagnostic. -/
theorem emptyDoc_quality {v : JValue} (h : emptyDoc v = false) (rel : String) :
    qualityDocLines rel v = [] := by
  cases v with
  | null => rfl
  | bool a => rfl
  | num a => rfl
  | str a => rfl
  | arr xs =>
      cases xs with
      | nil => simp [emptyDoc] at h
      | cons a l => rfl
  | obj kvs =>
      cases kvs with
      | nil => simp [emptyDoc] at h
      | cons a l => rfl

/-- A corpus without empty containers makes the data-quality check pass. -/
theorem check_data_quality_pass {files : List (String × JValue)}
    (h : ∀ p ∈ files, emptyDoc p.2 = false) :
    check_data_quality files = (true, ["  [PASS] No empty files, all JSON valid"]) := by
  have hnil : (sortPairs files).flatMap (fun rv => qualityDocLines rv.1 rv.2) = [] :=
    (sorted_flatMap_nil_iff _ files).mpr (fun rv hrv => emptyDoc_quality (h rv hrv) rv.1)
  simp only [check_data_quality]
  rw [hnil]
  rfl

/-- When every target record carries a hashable id, the id-set
comprehension succeeds and collects exactly the records' ids. -/
theorem buildIdSet_ok {ts : List JValue} (h : ∀ t ∈ ts, hasHashableId t = true) :
    buildIdSet ts = .ok (collectionIds ts) := by
  induction ts with
  | nil => rfl
  | cons t rest ih =>
      have ht := h t (List.mem_cons_self t rest)
      cases t with
      | obj kvs =>
          cases hf : kvs.find? (fun kv => kv.1 == "id") with
          | none => simp [hasHashableId, hf] at ht
          | some kv =>
              have hhash : hashable kv.2 = true := by
                simpa [hasHashableId, hf] using ht
              have hget : getItem (JValue.obj kvs) "id" = .ok kv.2 := by
                simp [getItem, hf]
              unfold buildIdSet
              rw [hget]
              simp only []
              rw [hhash]
              simp only [if_true]
              rw [ih (fun x hx => h x (List.mem_cons_of_mem _ hx))]
              simp only []
              unfold collectionIds
              rw [List.filterMap_cons]
              simp [hf, collectionIds]
      | null => simp [hasHashableId] at ht
      | bool a => simp [hasHashableId] at ht
      | num a => simp [hasHashableId] at ht
      | str a => simp [hasHashableId] at ht
      | arr a => simp [hasHashableId] at ht

/-- When every source record is well formed and every present truthy
reference resolves, a relationship scan collects no errors. -/
theorem relErrors_nil {label field : String} {ids : List JValue} {ss : List JValue}
    (hwf : ∀ p ∈ ss, srcRecWF field p = true)
    (hres : ∀ p ∈ ss, ∀ v, dictGet p field = .ok (some v) → truthy v = true →
      ids.any (fun w => JValue.beq w v) = true) :
    relErrors label field ids ss = .ok [] := by
  induction ss with
  | nil => rfl
  | cons p rest ih =>
      have hw := hwf p (List.mem_cons_self p rest)
      have ihr : relErrors label field ids rest = .ok [] :=
        ih (fun q hq => hwf q (List.mem_cons_of_mem p hq))
          (fun q hq => hres q (List.mem_cons_of_mem p hq))
      cases p with
      | obj kvs =>
          have hd : dictGet (JValue.obj kvs) field =
              .ok ((kvs.find? (fun kv => kv.1 == field)).map (fun kv => kv.2)) := rfl
          unfold relErrors
          rw [hd]
          simp only []
          cases hg : (kvs.find? (fun kv => kv.1 == field)).map (fun kv => kv.2) with
          | none =>
              simp only []
              rw [ihr]
              rfl
          | some v =>
              simp only []
              cases htr : truthy v with
              | false =>
                  simp only [Bool.false_eq_true, if_false]
                  rw [ihr]
                  rfl
              | true =>
                  simp only [if_true]
                  have hhash : hashable v = true := by
                    have hw2 : (!truthy v || hashable v) = true := by
                      simpa [srcRecWF, hg] using hw
                    rw [htr] at hw2
                    simpa using hw2
                  have hmem : ids.any (fun w => JValue.beq w v) = true := by
                    apply hres (JValue.obj kvs) (List.mem_cons_self _ rest) v _ htr
                    rw [hd, hg]
                  unfold setMem
                  rw [hhash]
                  simp only [if_true]
                  rw [hmem]
                  simp only [if_true]
                  rw [ihr]
                  rfl
      | null => simp [srcRecWF] at hw
      | bool a => simp [srcRecWF] at hw
      | num a => simp [srcRecWF] at hw
      | str a => simp [srcRecWF] at hw
      | arr a => simp [srcRecWF] at hw

/-- A well-formed relationship obeying invariant 2 collects no errors. -/
theorem relPart_nil {files : List (String × JValue)} {r : String × String × String × String}
    (hwf : relWF files r = true) (h2 : inv2rel files r = true) :
    relPart files r.1 r.2.1 r.2.2.1 r.2.2.2 = .ok [] := by
  unfold relWF at hwf
  unfold inv2rel at h2
  unfold relPart
  cases ht : lookupFile files r.1 with
  | none => rfl
  | some tv =>
      rw [ht] at hwf h2
      cases hsv : lookupFile files r.2.1 with
      | none => rfl
      | some sv =>
          rw [hsv] at hwf h2
          simp only [Bool.and_eq_true] at hwf
          obtain ⟨hwt, hws⟩ := hwf
          cases tv with
          | arr ts =>
              cases sv with
              | arr ss =>
                  simp only [pyIter]
                  rw [buildIdSet_ok (fun t htmem => List.all_eq_true.mp hwt t htmem)]
                  simp only []
                  apply relErrors_nil
                  · intro p hp
                    exact List.all_eq_true.mp hws p hp
                  · intro p hp v hv htr
                    have hall := List.all_eq_true.mp h2 p hp
                    cases p with
                    | obj kvs =>
                        have heq : dictGet (JValue.obj kvs) r.2.2.1 =
                            .ok ((kvs.find? (fun kv => kv.1 == r.2.2.1)).map
                              (fun kv => kv.2)) := rfl
                        rw [heq] at hv
                        have hg : (kvs.find? (fun kv => kv.1 == r.2.2.1)).map
                            (fun kv => kv.2) = some v := by
                          injection hv
                        simp only [] at hall
                        rw [hg] at hall
                        simp only [] at hall
                        rw [htr] at hall
                        simpa using hall
                    | null => simp [dictGet] at hv
                    | bool a => simp [dictGet] at hv
                    | num a => simp [dictGet] at hv
                    | str a => simp [dictGet] at hv
                    | arr a => simp [dictGet] at hv
              | null => simp at hws
              | bool a => simp at hws
              | num a => simp at hws
              | str a => simp at hws
              | obj a => simp at hws
          | null => simp at hwt
          | bool a => simp at hwt
          | num a => simp at hwt
          | str a => simp at hwt
          | obj a => simp at hwt

/-- When every record carries a hashable id, ids are pairwise distinct and
none equals a previously seen value, the duplicate scan collects no
errors. -/
theorem dupScan_nil {rel : String} {xs seen : List JValue}
    (hall : ∀ x ∈ xs, hasHashableId x = true)
    (hnodup : noDupBeq (collectionIds xs) = true)
    (hseen : ∀ v ∈ collectionIds xs, seen.any (fun w => JValue.beq w v) = false) :
    dupScan rel xs seen = .ok [] := by
  induction xs generalizing seen with
  | nil => rfl
  | cons x rest ih =>
      have hx := hall x (List.mem_cons_self x rest)
      cases x with
      | obj kvs =>
          cases hf : kvs.find? (fun kv => kv.1 == "id") with
          | none => simp [hasHashableId, hf] at hx
          | some kv =>
              have hhash : hashable kv.2 = true := by
                simpa [hasHashableId, hf] using hx
              have hget : getItem (JValue.obj kvs) "id" = .ok kv.2 := by
                simp [getItem, hf]
              have hcid : collectionIds (JValue.obj kvs :: rest) =
                  kv.2 :: collectionIds rest := by
                unfold collectionIds
                rw [List.filterMap_cons]
                simp [hf, collectionIds]
              rw [hcid] at hnodup hseen
              have hnd2 : noDupBeq (collectionIds rest) = true := by
                unfold noDupBeq at hnodup
                exact (Bool.and_eq_true .. ▸ hnodup).2
              have hx_not : (collectionIds rest).any (fun y => JValue.beq kv.2 y) = false := by
                have h1 := (Bool.and_eq_true .. ▸ hnodup).1
                simpa using h1
              unfold dupScan
              rw [hget]
              simp only []
              have hsm : setMem seen kv.2 = .ok false := by
                unfold setMem
                rw [hhash]
                simp only [if_true]
                rw [hseen kv.2 (List.mem_cons_self kv.2 (collectionIds rest))]
              rw [hsm]
              simp only []
              have hrec : dupScan rel rest (kv.2 :: seen) = .ok [] := by
                apply ih (fun y hy => hall y (List.mem_cons_of_mem _ hy)) hnd2
                intro v hv
                rw [List.any_cons]
                have hb : JValue.beq kv.2 v = false := by
                  cases hcase : JValue.beq kv.2 v
                  · rfl
                  · exfalso
                    have : (collectionIds rest).any (fun y => JValue.beq kv.2 y) = true :=
                      List.any_eq_true.mpr ⟨v, hv, hcase⟩
                    rw [this] at hx_not
                    cases hx_not
                have hs2 := hseen v (List.mem_cons_of_mem _ hv)
                rw [hb, hs2]
                rfl
              rw [hrec]
              rfl
      | null => simp [hasHashableId] at hx
      | bool a => simp [hasHashableId] at hx
      | num a => simp [hasHashableId] at hx
      | str a => simp [hasHashableId] at hx
      | arr a => simp [hasHashableId] at hx

/-- A well-formed document obeying invariant 1 contributes nothing to the
duplicate scan. -/
theorem dupEntry_nil {rel : String} {v : JValue}
    (hwf : dupWF v = true) (h1 : inv1doc v = true) :
    dupEntry rel v = .ok [] := by
  cases v with
  | arr xs =>
      cases xs with
      | nil => rfl
      | cons x rest =>
          unfold dupEntry
          cases hk : hasKey x "id" with
          | false => simp [hk]
          | true =>
              simp only [hk, if_true]
              have hall : ∀ y ∈ x :: rest, hasHashableId y = true := by
                have := hwf
                unfold dupWF at this
                simp only [] at this
                rw [hk] at this
                simp only [Bool.not_true, Bool.false_or] at this
                exact List.all_eq_true.mp this
              have hnd : noDupBeq (collectionIds (x :: rest)) = true := h1
              exact dupScan_nil hall hnd (fun v _ => rfl)
  | null => rfl
  | bool a => rfl
  | num a => rfl
  | str a => rfl
  | obj kvs => rfl

/-- A corpus of well-formed documents obeying invariant 1 yields an empty
duplicate-scan error list. -/
theorem dupAll_nil {files : List (String × JValue)}
    (h : ∀ p ∈ files, dupWF p.2 = true ∧ inv1doc p.2 = true) :
    dupAll files = .ok [] := by
  induction files with
  | nil => rfl
  | cons p rest ih =>
      obtain ⟨rel, d⟩ := p
      unfold dupAll
      rw [dupEntry_nil (h (rel, d) (List.mem_cons_self _ rest)).1
        (h (rel, d) (List.mem_cons_self _ rest)).2]
      simp only []
      rw [ih (fun q hq => h q (List.mem_cons_of_mem _ hq))]
      rfl

/-- A well-formed corpus obeying invariants 1 and 2 makes the
cross-reference check pass. -/
theorem check_xrefs_pass {files : List (String × JValue)}
    (hwf : XrefWF files) (h1 : SpecInv1 files) (h2 : SpecInv2 files) :
    check_xrefs files =
      .ok (true, ["  [PASS] All cross-references resolve, no duplicate IDs"]) := by
  have hr1 := relPart_nil
    (r := ("career/companies.json", "career/positions.json", "company_id",
      "positions: company_id"))
    (hwf.1 _ (List.Mem.head _)) (h2 _ (List.Mem.head _))
  have hr2 := relPart_nil
    (r := ("career/positions.json", "career/projects.json", "position_id",
      "projects: position_id"))
    (hwf.1 _ (List.mem_cons_of_mem _ (List.Mem.head _)))
    (h2 _ (List.mem_cons_of_mem _ (List.Mem.head _)))
  have hr3 := relPart_nil
    (r := ("career/education.json", "career/courses.json", "associated_education_id",
      "courses: education_id"))
    (hwf.1 _ (List.mem_cons_of_mem _ (List.mem_cons_of_mem _ (List.Mem.head _))))
    (h2 _ (List.mem_cons_of_mem _ (List.mem_cons_of_mem _ (List.Mem.head _))))
  have hd := dupAll_nil (fun p hp => ⟨hwf.2 p hp, h1 p hp⟩)
  have hr1b : relPart files "career/companies.json" "career/positions.json" "company_id"
      "positions: company_id" = .ok [] := hr1
  have hr2b : relPart files "career/positions.json" "career/projects.json" "position_id"
      "projects: position_id" = .ok [] := hr2
  have hr3b : relPart files "career/education.json" "career/courses.json"
      "associated_education_id" "courses: education_id" = .ok [] := hr3
  unfold check_xrefs
  rw [hr1b]
  simp only []
  rw [hr2b]
  simp only []
  rw [hr3b]
  simp only []
  rw [hd]
  rfl

/-- C7 (amended): a corpus satisfying the five §3 invariants *and* the
well-formedness condition that the scanned collections are lists of
mappings carrying hashable ids (with processable source records) — a
precondition the invariants alone do not supply — yields an all-pass run:
every check passes, the report announces it, and the exit status is 0. -/
theorem invariants_imply_all_pass (c : Corpus)
    (h1 : SpecInv1 (filesOf c)) (h2 : SpecInv2 (filesOf c)) (h3 : SpecInv3 (filesOf c))
    (h4 : SpecInv4 (filesOf c)) (h5 : SpecInv5 c) (hwf : XrefWF (filesOf c)) :
    ∃ report, auditMain c = .ok (0, report) ∧ "  ALL CHECKS PASSED" ∈ report := by
  have hdocs : ∀ rc ∈ contentOf c, privacyDocLines rc.1 rc.2 = [] ∧
      piiDocLines rc.1 rc.2 = [] ∧ familyDocLines rc.1 rc.2 = [] ∧
      secretsDocLines rc.1 rc.2 = [] := by
    intro rc hrc
    obtain ⟨d, hd, heq⟩ := List.mem_map.mp hrc
    obtain ⟨ha, hb, hc2, hd2, he, hf⟩ := docPatternClean_parts (h5 d hd)
    rw [← heq]
    exact ⟨privacyDocLines_nil ha, piiDocLines_nil hb hc2 hd2,
      familyDocLines_nil he, secretsDocLines_nil hf⟩
  have hp1 := check_privacy_terms_pass (fun rc hrc => (hdocs rc hrc).1)
  have hp2 := check_pii_pass (fun rc hrc => (hdocs rc hrc).2.1)
  have hp3 := check_family_details_pass (fun rc hrc => (hdocs rc hrc).2.2.1)
  have hp4 := check_secrets_pass (fun rc hrc => (hdocs rc hrc).2.2.2)
  have hx := check_xrefs_pass hwf h1 h2
  have hp6 := check_completeness_pass h3
  have hp7 := check_data_quality_pass h4
  have hmain : auditMain c = .ok (0,
      ["========================================", "  KNOWLEDGE BASE AUDIT REPORT",
       "========================================", "", "[1] PRIVACY EXCLUSION TERMS",
       "  [PASS] No excluded privacy terms found", "", "[2] PII EXPOSURE (email, phone, SSN)",
       "  [PASS] No email, phone, or SSN exposure", "", "[3] FAMILY DETAIL SPECIFICITY",
       "  [PASS] Family details properly generalized", "", "[4] SECRETS & CREDENTIALS",
       "  [PASS] No secrets or credentials detected", "", "[5] CROSS-REFERENCE INTEGRITY",
       "  [PASS] All cross-references resolve, no duplicate IDs", "", "[6] FILE COMPLETENESS",
       "  [PASS] All " ++ toString expectedFiles.length ++ " expected files present", "",
       "[7] DATA QUALITY", "  [PASS] No empty files, all JSON valid", "",
       "========================================", "  ALL CHECKS PASSED",
       "========================================", "", "RECORD COUNTS:"] ++
      (sortPairs (filesOf c)).map (fun rv => recordCountLine rv.1 rv.2)) := by
    unfold auditMain
    simp only []
    rw [hx]
    simp only []
    rw [hp1, hp2, hp3, hp4, hp6, hp7]
    rfl
  exact ⟨_, hmain, by simp⟩

/-- The manifest documents that are collections in the witness corpus. -/
def collectionKeys : List String :=
  ["career/companies.json", "career/positions.json", "career/education.json",
   "career/projects.json", "career/courses.json"]

/-- A fully well-formed all-pass corpus: all 28 manifest documents
present, relationship collections are single-record lists with ids, the
rest are non-empty single objects, and every raw text is clean. -/
def goodCorpus : Corpus :=
  expectedFiles.map (fun f =>
    if f ∈ collectionKeys then
      ⟨f, "[\x7b\"id\": \"x1\"\x7d]", .arr [.obj [("id", .str "x1")]]⟩
    else ⟨f, "\x7b\"a\": \"b\"\x7d", .obj [("a", .str "b")]⟩)

/-- Witness for C7 (amended) at a concrete all-pass corpus. -/
theorem invariants_imply_all_pass_witness :
    ∃ report, auditMain goodCorpus = .ok (0, report) ∧ "  ALL CHECKS PASSED" ∈ report :=
  invariants_imply_all_pass goodCorpus (by decide) (by decide) (by decide) (by decide)
    (by decide) (by decide)
